import Mathlib

/-!
Verification of the snake-arena server core: a shallow embedding of the
deterministic simulation engine (`GameEngine.js`) and the room state machine
(`Room.js`), with theorems checking the specified behaviour.

Numbers: the JavaScript code computes with IEEE doubles; following the usual
convention for shallow embeddings we model them as exact rationals.  To keep
every concrete evaluation kernel-decidable we represent a rational as an
unreduced fraction of integers (`Q`); all arithmetic is plain `Int`
arithmetic and comparisons are by cross-multiplication.  The transcendental
functions `Math.cos`, `Math.sin`, `Math.sqrt` have no exact rational
counterpart, so the engine step is parametrised by an oracle providing them;
theorems hold for every oracle.
-/

/-- Exact rational numbers as unreduced fractions (`den` is kept nonzero by
all constructions in this development). -/
structure Q where
  num : ℤ
  den : ℤ
deriving DecidableEq, Repr

namespace Q

def ofInt (n : ℤ) : Q := ⟨n, 1⟩

def add (a b : Q) : Q := ⟨a.num * b.den + b.num * a.den, a.den * b.den⟩

def sub (a b : Q) : Q := ⟨a.num * b.den - b.num * a.den, a.den * b.den⟩

def mul (a b : Q) : Q := ⟨a.num * b.num, a.den * b.den⟩

def div (a b : Q) : Q := ⟨a.num * b.den, a.den * b.num⟩

def neg (a : Q) : Q := ⟨-a.num, a.den⟩

instance : Add Q := ⟨add⟩

instance : Sub Q := ⟨sub⟩

instance : Mul Q := ⟨mul⟩

instance : Div Q := ⟨div⟩

instance : Neg Q := ⟨neg⟩

instance : OfNat Q n := ⟨ofInt n⟩

/-- `a < b` as rationals (denominators nonzero). -/
def lt (a b : Q) : Bool := (a.num * b.den - b.num * a.den) * (a.den * b.den) < 0

/-- `a ≤ b` as rationals (denominators nonzero). -/
def le (a b : Q) : Bool := (a.num * b.den - b.num * a.den) * (a.den * b.den) ≤ 0

/-- Semantic equality of the represented rationals. -/
def eqb (a b : Q) : Bool := a.num * b.den == b.num * a.den

/-- `Math.sign`. -/
def sign (a : Q) : Q := ⟨(a.num * a.den).sign, 1⟩

/-- `Math.abs`. -/
def abs (a : Q) : Q := if (a.num * a.den) < 0 then ⟨-a.num, a.den⟩ else a

/-- Truncation toward zero of the represented rational (`Math.trunc`,
and the rounding used by JavaScript's `%`). -/
def trunc (a : Q) : ℤ :=
  if a.den < 0 then Int.tdiv (-a.num) (-a.den) else Int.tdiv a.num a.den

/-- Floor of the represented rational (`Math.floor`). -/
def floorInt (a : Q) : ℤ :=
  if a.den < 0 then Int.fdiv (-a.num) (-a.den) else Int.fdiv a.num a.den

/-- JavaScript's `%` operator on numbers: `a - b * trunc (a / b)`. -/
def jsMod (a b : Q) : Q := a - b * ofInt (trunc (a / b))

end Q

/-- The double closest to π, the exact value of JavaScript's `Math.PI`. -/
def jsPI : Q := ⟨884279719003555, 281474976710656⟩

/-- `TWO_PI = Math.PI * 2` from `GameEngine.js`. -/
def twoPi : Q := ⟨1768559438007110, 281474976710656⟩

/-! ### Server constants (`constants.js`) -/

def INITIAL_SNAKE_LENGTH : ℕ := 10

def SNAKE_SPEED : Q := 3

def SNAKE_BOOST_SPEED : Q := ⟨11, 2⟩

def SNAKE_TURN_RATE : Q := ⟨12, 100⟩

def SNAKE_SEGMENT_RADIUS : Q := 8

def SNAKE_HEAD_RADIUS : Q := 10

def GROW_PER_FOOD : ℕ := 2

def BOOST_COST_INTERVAL : ℕ := 5

def MAX_SNAKE_SEGMENTS : ℕ := 200

def FOOD_BASE_COUNT : ℕ := 120

def FOOD_PER_PLAYER : ℕ := 8

def FOOD_SCORE : ℤ := 10

def FOOD_RADIUS : Q := 5

def BONUS_FOOD_CHANCE : Q := ⟨12, 100⟩

def POWERUP_SPAWN_CHANCE : Q := ⟨8, 1000⟩

def POWERUP_MAX : ℕ := 5

def POWERUP_DESPAWN_TICKS : ℤ := 200

/-- `POWERUP_TYPES`: type → duration (labels kept alongside). -/
def POWERUP_TYPES : List (String × ℤ × String) :=
  [("speed", 80, "Speed Boost"), ("shield", 60, "Shield"), ("ghost", 50, "Ghost")]

def COLLISION_GRACE_SEGMENTS : ℕ := 5

def BOUNDARY_KILL_MARGIN : Q := 50

/-! ### Engine data model (`GameEngine.js`) -/

structure Point where
  x : Q
  y : Q
deriving DecidableEq, Repr

/-- Squared euclidean distance (the collision code only ever compares
squared distances). -/
def dist2 (p q : Point) : Q := (p.x - q.x) * (p.x - q.x) + (p.y - q.y) * (p.y - q.y)

structure FoodItem where
  x : Q
  y : Q
  ftype : String
  value : ℤ
deriving DecidableEq, Repr

structure Powerup where
  pid : String
  x : Q
  y : Q
  ptype : String
  spawnTick : ℕ
deriving DecidableEq, Repr

structure Snake where
  id : String
  username : String
  pattern : String
  color : String
  segments : List Point
  angle : Q
  targetAngle : Q
  boosting : Bool
  alive : Bool
  score : ℤ
  kills : ℕ
  length : ℕ
  growPending : ℕ
  activePowerups : List (String × ℤ)
  deathTick : Option ℕ
  deathCause : Option String
  killedBy : Option String
  spawnTick : ℕ
deriving DecidableEq, Repr

/-- JavaScript truthiness of `snake.activePowerups[t]`: present and nonzero. -/
def Snake.hasEffect (s : Snake) (t : String) : Bool :=
  match s.activePowerups.lookup t with
  | some v => v != 0
  | none => false

/-- `snake.segments[0]` (all engine code paths touch it only on nonempty
bodies; the default point stands for the out-of-bounds access). -/
def Snake.head (s : Snake) : Point := s.segments.headD ⟨0, 0⟩

inductive GameEvent where
  | eat (playerId username : String) (fx fy : Q) (ftype : String) (growth : ℕ) (points : ℤ)
  | death (playerId username color cause : String) (killerId : Option String)
      (finalScore : ℤ) (finalLength : ℕ) (tick : ℕ)
  | kill (killerId killerName victimId victimName cause : String)
  | powerupSpawn (pid : String) (x y : Q) (ptype : String) (spawnTick : ℕ)
  | powerupPickup (playerId username ptype plabel : String)
  | powerupExpired (playerId ptype : String)
  | powerupDespawn (powerupId : String)
deriving DecidableEq, Repr

structure Engine where
  worldSize : Q
  centerX : Q
  centerY : Q
  boundaryRadius : Q
  snakes : List Snake
  food : List FoodItem
  powerups : List Powerup
  events : List GameEvent
  tick : ℕ
  rngState : ℕ
deriving DecidableEq, Repr

/-- Oracle for `Math.cos` / `Math.sin` / `Math.sqrt`, which have no exact
rational counterpart. -/
structure Oracle where
  cos : Q → Q
  sin : Q → Q
  sqrt : Q → Q

/-! ### Seeded PRNG (`_createRng`, Park–Miller LCG) -/

/-- Initial internal state: `s = seed % 2147483647; if (s <= 0) s += 2146483646`. -/
def initRngState (seed : ℤ) : ℕ :=
  let s := Int.emod seed 2147483647
  (if s ≤ 0 then s + 2147483646 else s).toNat

/-- One LCG step: `s = (s * 16807) % 2147483647`. -/
def nextRng (s : ℕ) : ℕ := (s * 16807) % 2147483647

/-- `_randFloat()`: advances the state and returns `(s - 1) / 2147483646`. -/
def randFloat (s : ℕ) : Q × ℕ :=
  let s' := nextRng s
  (⟨(s' : ℤ) - 1, 2147483646⟩, s')

/-- `_randInt(min, max) = floor(rng() * (max - min + 1)) + min`. -/
def randIntQ (s : ℕ) (min max : ℤ) : ℤ × ℕ :=
  let (r, s') := randFloat s
  (Q.floorInt (r * Q.ofInt (max - min + 1)) + min, s')

/-! ### Map-like helpers (`this.snakes` is a JS `Map`; keys are unique) -/

/-- `this.snakes.get(id)`. -/
def findSnake (id : String) (l : List Snake) : Option Snake := l.find? (fun s => s.id = id)

/-- In-place mutation of the snake stored under `id` (JS object mutation via
`Map.get`; keys are unique so at most one entry is affected). -/
def updateSnake (id : String) (f : Snake → Snake) (l : List Snake) : List Snake :=
  l.map (fun s => if s.id = id then f s else s)

/-- `this.snakes.delete(id)`. -/
def deleteSnake (id : String) (l : List Snake) : List Snake :=
  l.filter (fun s => ¬ s.id = id)

/-! ### Input (`queueInput`) -/

/-- A JavaScript number, including the non-finite values relevant to the
`isFinite` guard. -/
inductive JSNumber where
  | nan
  | posInf
  | negInf
  | finite (q : Q)
deriving DecidableEq, Repr

def JSNumber.isFinite : JSNumber → Bool
  | .finite _ => true
  | _ => false

/-- `queueInput(playerId, angle, boosting)`. -/
def queueInput (e : Engine) (playerId : String) (angle : JSNumber) (boosting : Bool) : Engine :=
  match findSnake playerId e.snakes with
  | none => e
  | some snake =>
    if ¬ snake.alive then e
    else
      { e with
        snakes := updateSnake playerId (fun s =>
          let s := match angle with
            | .finite q => { s with targetAngle := q }
            | _ => s
          { s with boosting := boosting }) e.snakes }

/-- `removeSnake(playerId)`. -/
def removeSnake (e : Engine) (playerId : String) : Engine :=
  { e with snakes := deleteSnake playerId e.snakes }

/-! ### Angle-difference normalization (the two `while` loops in `_moveSnakes`)

The loops terminate because each iteration moves the represented value by
`2π` toward `[-π, π]`; we justify this with the rational value of a `Q`. -/

/-- The rational represented by a `Q`. -/
def Q.val (a : Q) : ℚ := (a.num : ℚ) / (a.den : ℚ)

theorem Q.lt_val {a b : Q} (h : Q.lt a b = true) :
    a.den ≠ 0 ∧ b.den ≠ 0 ∧ Q.val a < Q.val b := by
  simp only [Q.lt, decide_eq_true_eq] at h
  have had : a.den ≠ 0 := by
    intro h0
    rw [h0] at h
    simp at h
  have hbd : b.den ≠ 0 := by
    intro h0
    rw [h0] at h
    simp at h
  refine ⟨had, hbd, ?_⟩
  have hcast : ((a.num * b.den - b.num * a.den : ℤ) : ℚ) * ((a.den * b.den : ℤ) : ℚ) < 0 := by
    have := h
    exact_mod_cast mul_neg_iff.mpr (by
      rcases mul_neg_iff.mp h with ⟨h1, h2⟩ | ⟨h1, h2⟩
      · exact Or.inl ⟨by exact_mod_cast h1, by exact_mod_cast h2⟩
      · exact Or.inr ⟨by exact_mod_cast h1, by exact_mod_cast h2⟩)
  have hbd' : ((b.den : ℤ) : ℚ) ≠ 0 := by exact_mod_cast hbd
  have had' : ((a.den : ℤ) : ℚ) ≠ 0 := by exact_mod_cast had
  have key : Q.val a - Q.val b < 0 := by
    have hrw : Q.val a - Q.val b =
        (((a.num * b.den - b.num * a.den : ℤ) : ℚ)) / (((a.den * b.den : ℤ) : ℚ)) := by
      unfold Q.val
      push_cast
      field_simp
      ring
    rw [hrw]
    rcases mul_neg_iff.mp hcast with ⟨h1, h2⟩ | ⟨h1, h2⟩
    · exact div_neg_of_pos_of_neg h1 h2
    · exact div_neg_of_neg_of_pos h1 h2
  linarith

theorem Q.val_sub {a b : Q} (ha : a.den ≠ 0) (hb : b.den ≠ 0) :
    Q.val (a - b) = Q.val a - Q.val b := by
  show Q.val (Q.sub a b) = _
  unfold Q.val Q.sub
  have ha' : ((a.den : ℤ) : ℚ) ≠ 0 := by exact_mod_cast ha
  have hb' : ((b.den : ℤ) : ℚ) ≠ 0 := by exact_mod_cast hb
  push_cast
  field_simp
  try ring

theorem Q.val_add {a b : Q} (ha : a.den ≠ 0) (hb : b.den ≠ 0) :
    Q.val (a + b) = Q.val a + Q.val b := by
  show Q.val (Q.add a b) = _
  unfold Q.val Q.add
  have ha' : ((a.den : ℤ) : ℚ) ≠ 0 := by exact_mod_cast ha
  have hb' : ((b.den : ℤ) : ℚ) ≠ 0 := by exact_mod_cast hb
  push_cast
  field_simp
  try ring

theorem jsPI_val_pos : 0 < Q.val jsPI := by
  unfold Q.val jsPI
  norm_num

theorem twoPi_den_ne : twoPi.den ≠ 0 := by
  unfold twoPi
  norm_num

theorem twoPi_val : Q.val twoPi = 2 * Q.val jsPI := by
  unfold Q.val twoPi jsPI
  norm_num

/-- `while (angleDiff > Math.PI) angleDiff -= TWO_PI`. -/
def reduceHi (d : Q) : Q :=
  if h : Q.lt jsPI d = true then reduceHi (d - twoPi) else d
termination_by (⌈(Q.val d - Q.val jsPI) / Q.val twoPi⌉).toNat
decreasing_by
  obtain ⟨hpd, hdd, hval⟩ := Q.lt_val h
  rw [Q.val_sub hdd twoPi_den_ne, twoPi_val]
  have hpi := jsPI_val_pos
  have h2p : (0:ℚ) < 2 * Q.val jsPI := by linarith
  have hrw : (Q.val d - 2 * Q.val jsPI - Q.val jsPI) / (2 * Q.val jsPI) =
      (Q.val d - Q.val jsPI) / (2 * Q.val jsPI) - 1 := by
    field_simp
    ring
  rw [hrw, Int.ceil_sub_one]
  have hpos : 0 < (Q.val d - Q.val jsPI) / (2 * Q.val jsPI) :=
    div_pos (by linarith) h2p
  have hceil : 1 ≤ ⌈(Q.val d - Q.val jsPI) / (2 * Q.val jsPI)⌉ := by
    have := Int.ceil_pos.mpr hpos
    omega
  omega

/-- `while (angleDiff < -Math.PI) angleDiff += TWO_PI`. -/
def reduceLo (d : Q) : Q :=
  if h : Q.lt d (Q.neg jsPI) = true then reduceLo (d + twoPi) else d
termination_by (⌈(-Q.val jsPI - Q.val d) / Q.val twoPi⌉).toNat
decreasing_by
  obtain ⟨hdd, hnd, hval⟩ := Q.lt_val h
  have hnegval : Q.val (Q.neg jsPI) = -Q.val jsPI := by
    unfold Q.val Q.neg jsPI
    push_cast
    ring
  rw [hnegval] at hval
  rw [Q.val_add hdd twoPi_den_ne, twoPi_val]
  have hpi := jsPI_val_pos
  have h2p : (0:ℚ) < 2 * Q.val jsPI := by linarith
  have hrw : (-Q.val jsPI - (Q.val d + 2 * Q.val jsPI)) / (2 * Q.val jsPI) =
      (-Q.val jsPI - Q.val d) / (2 * Q.val jsPI) - 1 := by
    field_simp
    ring
  rw [hrw, Int.ceil_sub_one]
  have hpos : 0 < (-Q.val jsPI - Q.val d) / (2 * Q.val jsPI) :=
    div_pos (by linarith) h2p
  have hceil : 1 ≤ ⌈(-Q.val jsPI - Q.val d) / (2 * Q.val jsPI)⌉ := by
    have := Int.ceil_pos.mpr hpos
    omega
  omega

/-! ### Movement (`_moveSnakes`) -/

/-- The ghost wrap-around at the end of `_moveSnakes`: if the (post-move)
head has left the boundary, teleport it through the center to the opposite
side. -/
def ghostWrap (o : Oracle) (cx cy R : Q) (hasGhost : Bool) (segs : List Point) : List Point :=
  if hasGhost then
    match segs with
    | [] => []
    | gh :: rest =>
      if Q.lt R (o.sqrt ((gh.x - cx) * (gh.x - cx) + (gh.y - cy) * (gh.y - cy))) then
        (⟨cx - (gh.x - cx) * ⟨8, 10⟩, cy - (gh.y - cy) * ⟨8, 10⟩⟩ : Point) :: rest
      else gh :: rest
  else segs

theorem ghostWrap_length (o : Oracle) (cx cy R : Q) (b : Bool) (l : List Point) :
    (ghostWrap o cx cy R b l).length = l.length := by
  unfold ghostWrap
  cases b with
  | false => rfl
  | true =>
    cases l with
    | nil => rfl
    | cons gh rest =>
      dsimp only
      rw [if_pos rfl]
      split <;> simp

/-- The body-update tail of one snake's movement step: unshift the new
head, trim toward `length + growPending`, settle growth, enforce the hard
cap, pay the boost cost, and apply the ghost wrap.  Split out from
`moveSnake` so the segment-count reasoning does not mention the heading
arithmetic. -/
def moveSnakeTail (o : Oracle) (tick : ℕ) (cx cy R : Q) (canBoost : Bool)
    (angle : Q) (newHead : Point) (s : Snake) : Snake × List FoodItem :=
  let segs1 := newHead :: s.segments
  let targetLen := s.length + s.growPending
  let segs2 := if targetLen < segs1.length then segs1.take targetLen else segs1
  let lengp :=
    if 0 < s.growPending ∧ targetLen ≤ segs2.length then (min targetLen MAX_SNAKE_SEGMENTS, 0)
    else (s.length, s.growPending)
  let segslen :=
    if MAX_SNAKE_SEGMENTS < segs2.length then (segs2.take MAX_SNAKE_SEGMENTS, MAX_SNAKE_SEGMENTS)
    else (segs2, lengp.1)
  let lendrops :=
    if canBoost && (tick % BOOST_COST_INTERVAL == 0) then
      if INITIAL_SNAKE_LENGTH + 3 < segslen.2 then
        (segslen.2 - 1,
          match segslen.1.getLast? with
          | some t => [(⟨t.x, t.y, "normal", FOOD_SCORE⟩ : FoodItem)]
          | none => [])
      else (segslen.2, [])
    else (segslen.2, [])
  let segs4 := ghostWrap o cx cy R (s.hasEffect "ghost") segslen.1
  ({ s with angle := angle, segments := segs4, length := lendrops.1, growPending := lengp.2 },
    lendrops.2)

/-- One snake's movement step.  `tick` is the engine tick (already
incremented), `cx`,`cy`,`R` the world parameters.  Returns the updated
snake and the food crumbs dropped while boosting. -/
def moveSnake (o : Oracle) (tick : ℕ) (cx cy R : Q) (s : Snake) : Snake × List FoodItem :=
  let angleDiff := reduceLo (reduceHi (s.targetAngle - s.angle))
  let a1 :=
    if Q.le (Q.abs angleDiff) SNAKE_TURN_RATE then s.targetAngle
    else s.angle + Q.sign angleDiff * SNAKE_TURN_RATE
  let angle := Q.jsMod (Q.jsMod a1 twoPi + twoPi) twoPi
  let canBoost := s.boosting && decide (INITIAL_SNAKE_LENGTH + 3 < s.length)
  let speed0 := if canBoost then SNAKE_BOOST_SPEED else SNAKE_SPEED
  let speed := if s.hasEffect "speed" then speed0 * ⟨14, 10⟩ else speed0
  let head := s.head
  let newHead : Point := ⟨head.x + o.cos angle * speed, head.y + o.sin angle * speed⟩
  moveSnakeTail o tick cx cy R canBoost angle newHead s

/-- Iteration of `_moveSnakes` over the snake map: dead snakes are skipped,
boost crumbs accumulate onto the food list in iteration order. -/
def moveSnakesGo (o : Oracle) (tick : ℕ) (cx cy R : Q) :
    List Snake → List Snake × List FoodItem
  | [] => ([], [])
  | s :: rest =>
    let restres := moveSnakesGo o tick cx cy R rest
    if s.alive then
      let sres := moveSnake o tick cx cy R s
      (sres.1 :: restres.1, sres.2 ++ restres.2)
    else (s :: restres.1, restres.2)

def moveSnakes (o : Oracle) (e : Engine) : Engine :=
  let res := moveSnakesGo o e.tick e.centerX e.centerY e.boundaryRadius e.snakes
  { e with snakes := res.1, food := e.food ++ res.2 }

/-! ### Collision detection (`_detectCollisions`) -/

structure DeathRec where
  id : String
  cause : String
  killerId : Option String
deriving DecidableEq, Repr

/-- `headRadius + segRadius * 0.6` (self-collision threshold). -/
def selfThreshold : Q := SNAKE_HEAD_RADIUS + SNAKE_SEGMENT_RADIUS * ⟨6, 10⟩

/-- `headRadius * 2` (head-to-head threshold). -/
def hhThreshold : Q := SNAKE_HEAD_RADIUS * 2

/-- `headRadius + segRadius * 0.7` (head-to-body threshold). -/
def bodyThreshold : Q := SNAKE_HEAD_RADIUS + SNAKE_SEGMENT_RADIUS * ⟨7, 10⟩

/-- Head outside the circular boundary: `sqrt(dx²+dy²) > boundaryRadius`. -/
def boundaryOut (o : Oracle) (cx cy R : Q) (s : Snake) : Bool :=
  let head := s.head
  Q.lt R (o.sqrt ((head.x - cx) * (head.x - cx) + (head.y - cy) * (head.y - cy)))

/-- Self-collision check with the dynamic grace window
`max(8, floor(segments.length * 0.15))`. -/
def selfCollides (s : Snake) : Bool :=
  let head := s.head
  let selfGrace := max 8 (s.segments.length * 15 / 100)
  (s.segments.drop selfGrace).any (fun seg =>
    Q.lt (dist2 head seg) (selfThreshold * selfThreshold))

/-- First collision loop: boundary death (unless ghost), then self-collision
(unless shield). -/
def wallSelfDeath (o : Oracle) (cx cy R : Q) (s : Snake) : Option DeathRec :=
  if ¬ s.alive then none
  else if boundaryOut o cx cy R s && !(s.hasEffect "ghost") then some ⟨s.id, "wall", none⟩
  else if !(s.hasEffect "shield") && selfCollides s then some ⟨s.id, "self", none⟩
  else none

def phase1Deaths (o : Oracle) (cx cy R : Q) (snakes : List Snake) : List DeathRec :=
  snakes.filterMap (wallSelfDeath o cx cy R)

/-- Both heads within `2 × headRadius`. -/
def headToHeadClose (A B : Snake) : Bool :=
  Q.lt (dist2 A.head B.head) (hhThreshold * hhThreshold)

/-- `snake.segments[1] || head` — the previous-tick head position. -/
def prevHead (s : Snake) : Point := s.segments.getD 1 s.head

/-- Head of `A` within the collision threshold of a segment of `B` beyond the
grace window. -/
def bodyHit (A B : Snake) : Bool :=
  (B.segments.drop COLLISION_GRACE_SEGMENTS).any (fun seg =>
    Q.lt (dist2 A.head seg) (bodyThreshold * bodyThreshold))

/-- Inner `j` loop of the cross-snake collision check for snake `A` at
index `i`; `ds` is the accumulated death list (the `break` on an own death
returns it unchanged). -/
def crossInner (i : ℕ) (A : Snake) : List (ℕ × Snake) → List DeathRec → List DeathRec
  | [], ds => ds
  | (j, B) :: rest, ds =>
    if i = j then crossInner i A rest ds
    else if ¬ B.alive then crossInner i A rest ds
    else if ds.any (fun d => d.id == A.id) then ds
    else if i < j && headToHeadClose A B then
      let dA2 := dist2 A.head (prevHead B)
      let dB2 := dist2 B.head (prevHead A)
      let colliderIsA := Q.le dA2 dB2
      let collider := if colliderIsA then A else B
      let ds' :=
        if collider.hasEffect "shield" then ds
        else ds ++ [⟨if colliderIsA then A.id else B.id, "head_collision",
          some (if colliderIsA then B.id else A.id)⟩]
      crossInner i A rest ds'
    else if !(A.hasEffect "ghost") && !(A.hasEffect "shield") && bodyHit A B then
      crossInner i A rest (ds ++ [⟨A.id, "collision", some B.id⟩])
    else crossInner i A rest ds

/-- Outer `i` loop of the cross-snake collision check. -/
def crossOuter (all : List (ℕ × Snake)) : List (ℕ × Snake) → List DeathRec → List DeathRec
  | [], ds => ds
  | (i, A) :: rest, ds =>
    if !A.alive || ds.any (fun d => d.id == A.id) then crossOuter all rest ds
    else crossOuter all rest (crossInner i A all ds)

/-- Food scattered along the corpse: every third segment that lies inside
the boundary drops a bonus crumb with a random jitter. -/
def corpseFood (cx cy R : Q) (segs : List Point) (rng : ℕ) : List FoodItem × ℕ :=
  match segs with
  | [] => ([], rng)
  | seg :: rest =>
    if Q.lt ((seg.x - cx) * (seg.x - cx) + (seg.y - cy) * (seg.y - cy)) (R * R) then
      let r1 := randFloat rng
      let r2 := randFloat r1.2
      let restres := corpseFood cx cy R (rest.drop 2) r2.2
      (⟨seg.x + (r1.1 - ⟨1, 2⟩) * 8, seg.y + (r2.1 - ⟨1, 2⟩) * 8, "bonus", 30⟩ :: restres.1,
        restres.2)
    else corpseFood cx cy R (rest.drop 2) rng
termination_by segs.length
decreasing_by
  all_goals simp [List.length_drop]
  all_goals omega

/-- `_applyDeath(playerId, cause, killerId)`.  (`if (killerId)`: player ids
are nonempty strings, so `some` is truthy.) -/
def applyDeath (e : Engine) (playerId : String) (cause : String)
    (killerId : Option String) : Engine :=
  match findSnake playerId e.snakes with
  | none => e
  | some snake =>
    if ¬ snake.alive then e
    else
      let e1 := { e with snakes := updateSnake playerId (fun s =>
        { s with alive := false, deathTick := some e.tick, deathCause := some cause,
                 killedBy := killerId }) e.snakes }
      let cf := corpseFood e.centerX e.centerY e.boundaryRadius snake.segments e.rngState
      let e2 := { e1 with food := e1.food ++ cf.1, rngState := cf.2 }
      let e3 :=
        match killerId with
        | some kid =>
          match findSnake kid e2.snakes with
          | some killer =>
            if killer.alive then
              { e2 with
                snakes := updateSnake kid (fun k =>
                  { k with kills := k.kills + 1, score := k.score + 50 }) e2.snakes,
                events := e2.events ++
                  [GameEvent.kill kid killer.username playerId snake.username cause] }
            else e2
          | none => e2
        | none => e2
      { e3 with events := e3.events ++
          [GameEvent.death playerId snake.username snake.color cause killerId
            snake.score snake.length e.tick] }

/-- The deduplicated death-application pass. -/
def applyDeaths (e : Engine) : List DeathRec → List String → Engine
  | [], _ => e
  | d :: rest, killed =>
    if killed.contains d.id then applyDeaths e rest killed
    else applyDeaths (applyDeath e d.id d.cause d.killerId) rest (d.id :: killed)

def detectCollisions (o : Oracle) (e : Engine) : Engine :=
  let entries := e.snakes
  let deaths1 := phase1Deaths o e.centerX e.centerY e.boundaryRadius entries
  let enum := entries.enum
  let deaths := crossOuter enum enum deaths1
  applyDeaths e deaths []

/-! ### Food consumption (`_checkFood`) -/

/-- One snake's pass over the food list.  The JS loop runs from the highest
index down, so the surviving foods keep their order and the `eat` events
appear in reverse food order; returns (remaining food, total growth, total
points, events). -/
def eatScan (s : Snake) : List FoodItem → List FoodItem × ℕ × ℤ × List GameEvent
  | [] => ([], 0, 0, [])
  | f :: rest =>
    let r := eatScan s rest
    let pickupRadius := SNAKE_HEAD_RADIUS + FOOD_RADIUS
    if Q.lt ((s.head.x - f.x) * (s.head.x - f.x) + (s.head.y - f.y) * (s.head.y - f.y))
        (pickupRadius * pickupRadius) then
      let growth := if f.ftype == "bonus" then GROW_PER_FOOD + 2 else GROW_PER_FOOD
      let points := if f.value == 0 then FOOD_SCORE else f.value
      (r.1, r.2.1 + growth, r.2.2.1 + points,
        r.2.2.2 ++ [GameEvent.eat s.id s.username f.x f.y f.ftype growth points])
    else (f :: r.1, r.2)

def checkFoodGo : List Snake → List FoodItem → List Snake × List FoodItem × List GameEvent
  | [], food => ([], food, [])
  | s :: rest, food =>
    if s.alive then
      let r := eatScan s food
      let s' := { s with growPending := s.growPending + r.2.1, score := s.score + r.2.2.1 }
      let rr := checkFoodGo rest r.1
      (s' :: rr.1, rr.2.1, r.2.2.2 ++ rr.2.2)
    else
      let rr := checkFoodGo rest food
      (s :: rr.1, rr.2)

def checkFood (e : Engine) : Engine :=
  let r := checkFoodGo e.snakes e.food
  { e with snakes := r.1, food := r.2.1, events := e.events ++ r.2.2 }

/-! ### Power-up pickup (`_checkPowerupPickup`) -/

def powerupDef (t : String) : Option (ℤ × String) :=
  (POWERUP_TYPES.find? (fun p => p.1 == t)).map (·.2)

/-- One snake's pass over the powerup list: the JS loop runs from the
highest index down and `break`s at the first hit, so the picked powerup is
the hitting one with the highest index. -/
def pickScan (s : Snake) : List Powerup → List Powerup × Option Powerup
  | [] => ([], none)
  | p :: rest =>
    let r := pickScan s rest
    match r.2 with
    | some _ => (p :: r.1, r.2)
    | none =>
      let pickupRadius := SNAKE_HEAD_RADIUS + 12
      if Q.lt ((s.head.x - p.x) * (s.head.x - p.x) + (s.head.y - p.y) * (s.head.y - p.y))
          (pickupRadius * pickupRadius) then (r.1, some p)
      else (p :: r.1, none)

/-- `snake.activePowerups[type] = duration`: refresh in place or append. -/
def puSet (t : String) (v : ℤ) (l : List (String × ℤ)) : List (String × ℤ) :=
  if l.any (fun kv => kv.1 == t) then l.map (fun kv => if kv.1 == t then (t, v) else kv)
  else l ++ [(t, v)]

def checkPowerupPickupGo : List Snake → List Powerup → List Snake × List Powerup × List GameEvent
  | [], pus => ([], pus, [])
  | s :: rest, pus =>
    if s.alive then
      let r := pickScan s pus
      match r.2 with
      | some pu =>
        let pdef := powerupDef pu.ptype
        let s' := { s with
          activePowerups :=
            match pdef with
            | some d => puSet pu.ptype d.1 s.activePowerups
            | none => s.activePowerups,
          score := s.score + 15 }
        let ev := GameEvent.powerupPickup s.id s.username pu.ptype
          (match pdef with | some d => d.2 | none => pu.ptype)
        let rr := checkPowerupPickupGo rest r.1
        (s' :: rr.1, rr.2.1, [ev] ++ rr.2.2)
      | none =>
        let rr := checkPowerupPickupGo rest r.1
        (s :: rr.1, rr.2)
    else
      let rr := checkPowerupPickupGo rest pus
      (s :: rr.1, rr.2)

def checkPowerupPickup (e : Engine) : Engine :=
  let r := checkPowerupPickupGo e.snakes e.powerups
  { e with snakes := r.1, powerups := r.2.1, events := e.events ++ r.2.2 }

/-! ### Effect countdown and field despawn (`_tickActivePowerups`) -/

/-- Decrement every active effect; remove the ones reaching (or already at)
zero, reporting their types in key order. -/
def tickPus : List (String × ℤ) → List (String × ℤ) × List String
  | [] => ([], [])
  | (t, v) :: rest =>
    let v' := v - 1
    let r := tickPus rest
    if v' ≤ 0 then (r.1, t :: r.2) else ((t, v') :: r.1, r.2)

/-- Field powerups whose age exceeds `POWERUP_DESPAWN_TICKS` are removed;
the JS loop runs from the highest index down, so despawn events appear in
reverse list order. -/
def despawnScan (tick : ℕ) : List Powerup → List Powerup × List GameEvent
  | [] => ([], [])
  | p :: rest =>
    let r := despawnScan tick rest
    if POWERUP_DESPAWN_TICKS < (tick : ℤ) - (p.spawnTick : ℤ) then
      (r.1, r.2 ++ [GameEvent.powerupDespawn p.pid])
    else (p :: r.1, r.2)

def tickActivePowerups (e : Engine) : Engine :=
  let snakes' := e.snakes.map (fun s =>
    if s.alive then { s with activePowerups := (tickPus s.activePowerups).1 } else s)
  let expEvents := e.snakes.flatMap (fun s =>
    if s.alive then (tickPus s.activePowerups).2.map (fun t => GameEvent.powerupExpired s.id t)
    else [])
  let d := despawnScan e.tick e.powerups
  { e with snakes := snakes', powerups := d.1, events := e.events ++ expEvents ++ d.2 }

/-! ### Food maintenance and power-up spawn -/

/-- `_randomWorldPosition(radiusFraction)`. -/
def randomWorldPosition (o : Oracle) (cx cy R : Q) (frac : Q) (rng : ℕ) : Point × ℕ :=
  let maxR := R * frac
  let ra := randFloat rng
  let rr := randFloat ra.2
  let a := ra.1 * twoPi
  let r := o.sqrt rr.1 * maxR
  (⟨cx + o.cos a * r, cy + o.sin a * r⟩, rr.2)

def desiredFoodCount (snakes : List Snake) : ℕ :=
  FOOD_BASE_COUNT + (snakes.filter (·.alive)).length * FOOD_PER_PLAYER

/-- The `while (food.length < desired)` top-up loop: each iteration appends
exactly one food, so it runs `desired - food.length` times. -/
def topUpFood (o : Oracle) (cx cy R : Q) : ℕ → List FoodItem → ℕ → List FoodItem × ℕ
  | 0, food, rng => (food, rng)
  | n + 1, food, rng =>
    let pr := randomWorldPosition o cx cy R ⟨9, 10⟩ rng
    let rb := randFloat pr.2
    let isBonus := Q.lt rb.1 BONUS_FOOD_CHANCE
    let f : FoodItem := ⟨pr.1.x, pr.1.y, if isBonus then "bonus" else "normal",
      if isBonus then 30 else FOOD_SCORE⟩
    topUpFood o cx cy R n (food ++ [f]) rb.2

def maintainFood (o : Oracle) (e : Engine) : Engine :=
  let desired := desiredFoodCount e.snakes
  let r := topUpFood o e.centerX e.centerY e.boundaryRadius (desired - e.food.length)
    e.food e.rngState
  { e with food := r.1, rngState := r.2 }

def maybeSpawnPowerup (o : Oracle) (e : Engine) : Engine :=
  let aliveCount := (e.snakes.filter (·.alive)).length
  if aliveCount < 1 then e
  else if POWERUP_MAX ≤ e.powerups.length then e
  else
    let rc := randFloat e.rngState
    if Q.lt POWERUP_SPAWN_CHANCE rc.1 then { e with rngState := rc.2 }
    else
      let pr := randomWorldPosition o e.centerX e.centerY e.boundaryRadius ⟨75, 100⟩ rc.2
      let ti := randIntQ pr.2 0 ((POWERUP_TYPES.length : ℤ) - 1)
      let ptype := (POWERUP_TYPES.getD ti.1.toNat ("speed", 80, "Speed Boost")).1
      let ri := randIntQ ti.2 0 9999
      let pu : Powerup := ⟨s!"pu_{e.tick}_{ri.1}", pr.1.x, pr.1.y, ptype, e.tick⟩
      { e with
        rngState := ri.2,
        powerups := e.powerups ++ [pu],
        events := e.events ++
          [GameEvent.powerupSpawn pu.pid pu.x pu.y pu.ptype pu.spawnTick] }

/-! ### The per-tick transition (`update`) -/

/-- `update()`: advances the engine one tick and returns the new engine
together with the returned `{ tick, events }` payload. -/
def update (o : Oracle) (e : Engine) : Engine × ℕ × List GameEvent :=
  let e0 := { e with tick := e.tick + 1, events := [] }
  let e1 := moveSnakes o e0
  let e2 := detectCollisions o e1
  let e3 := checkFood e2
  let e4 := checkPowerupPickup e3
  let e5 := tickActivePowerups e4
  let e6 := maintainFood o e5
  let e7 := maybeSpawnPowerup o e6
  (e7, e7.tick, e7.events)

def getAliveCount (e : Engine) : ℕ := (e.snakes.filter (·.alive)).length

/-! ### Leaderboard and standings -/

/-- The `getLeaderboard` comparator for alive snakes:
`(a, b) => b.score - a.score || b.length - a.length`. -/
def lbCmp (a b : Snake) : ℤ :=
  if b.score - a.score ≠ 0 then b.score - a.score else (b.length : ℤ) - (a.length : ℤ)

def lbLe (a b : Snake) : Bool := lbCmp a b ≤ 0

/-- The `getLeaderboard` comparator for dead snakes:
`(a, b) => (b.deathTick || 0) - (a.deathTick || 0)`. -/
def deadCmp (a b : Snake) : ℤ := ((b.deathTick.getD 0 : ℕ) : ℤ) - ((a.deathTick.getD 0 : ℕ) : ℤ)

def deadLe (a b : Snake) : Bool := deadCmp a b ≤ 0

structure LBEntry where
  rank : ℕ
  id : String
  username : String
  color : String
  pattern : String
  score : ℤ
  length : ℕ
  kills : ℕ
  alive : Bool
  deathTick : Option ℕ
  deathCause : Option String
  killedBy : Option String
deriving DecidableEq, Repr

structure Leaderboard where
  alive : List LBEntry
  dead : List LBEntry
  total : ℕ
  aliveCount : ℕ
deriving DecidableEq, Repr

/-- `getLeaderboard()` (JS `Array.sort` modelled by a stable merge sort on
the same comparator). -/
def getLeaderboard (e : Engine) : Leaderboard :=
  let all := e.snakes
  let aliveE := ((all.filter (·.alive)).mergeSort lbLe).mapIdx (fun i s =>
    (⟨i + 1, s.id, s.username, s.color, s.pattern, s.score, s.length, s.kills, true,
      none, none, none⟩ : LBEntry))
  let deadE := ((all.filter (fun s => !s.alive && s.deathTick.isSome)).mergeSort
      deadLe).mapIdx (fun i s =>
    (⟨aliveE.length + i + 1, s.id, s.username, s.color, s.pattern, s.score, s.length,
      s.kills, false, s.deathTick, s.deathCause, s.killedBy⟩ : LBEntry))
  ⟨aliveE, deadE, all.length, aliveE.length⟩

/-- The `getStandings` comparator: alive first, then score desc, then
length desc. -/
def standCmp (a b : Snake) : ℤ :=
  if a.alive ≠ b.alive then (if a.alive then -1 else 1)
  else if b.score ≠ a.score then b.score - a.score
  else (b.length : ℤ) - (a.length : ℤ)

def standLe (a b : Snake) : Bool := standCmp a b ≤ 0

structure StandingEntry where
  rank : ℕ
  id : String
  username : String
  pattern : String
  color : String
  score : ℤ
  length : ℕ
  kills : ℕ
  alive : Bool
  deathTick : Option ℕ
  deathCause : Option String
  survivalTicks : ℤ
deriving DecidableEq, Repr

/-- `getStandings()` — `s.deathTick || this.tick` is truthiness, so a zero
death tick also falls back to the current tick. -/
def getStandings (e : Engine) : List StandingEntry :=
  (e.snakes.mergeSort standLe).mapIdx (fun i s =>
    (⟨i + 1, s.id, s.username, s.pattern, s.color, s.score, s.length, s.kills, s.alive,
      s.deathTick, s.deathCause,
      if s.alive then (e.tick : ℤ) - (s.spawnTick : ℤ)
      else
        (if s.deathTick.getD 0 = 0 then (e.tick : ℤ) else ((s.deathTick.getD 0 : ℕ) : ℤ)) -
          (s.spawnTick : ℤ)⟩ : StandingEntry))

/-! ### Room state machine (`Room.js`) -/

/-- The closed `ROOM_STATES` catalog. -/
inductive RoomState where
  | waiting
  | countdown
  | playing
  | ended
deriving DecidableEq, Repr

/-- The closed `GAME_MODES` catalog. -/
inductive GameMode where
  | lastStanding
  | timed
  | freePlay
deriving DecidableEq, Repr

structure Player where
  id : String
  username : String
  connected : Bool
  alive : Bool
  spectating : Bool
  roomId : Option String
  isRoomCreator : Bool
deriving DecidableEq, Repr

/-- The `game_over` payload (`duration` is wall-clock `Date.now()` based and
is not modelled). -/
structure GameOverData where
  reason : String
  standings : List StandingEntry
  winner : Option StandingEntry
  round : ℕ
deriving DecidableEq, Repr

/-- One room.  `gameOver` records the payload of the `game_over`
broadcast/callback fired by `_endGame` (the timers and network sends are
outside the model). -/
structure Room where
  id : String
  name : String
  creatorId : Option String
  state : RoomState
  worldSize : Q
  maxPlayers : ℕ
  mode : GameMode
  players : List Player
  engine : Option Engine
  roundNumber : ℕ
  gameOver : Option GameOverData
deriving DecidableEq, Repr

/-- `this.players.set(id, player)`: replace in place or append. -/
def playersSet (p : Player) (l : List Player) : List Player :=
  if l.any (fun q => q.id == p.id) then l.map (fun q => if q.id == p.id then p else q)
  else l ++ [p]

/-- `isFull()`. -/
def Room.isFull (r : Room) : Bool := r.maxPlayers ≤ r.players.length

inductive AddResult where
  | success (asSpectator : Bool)
  | error (msg : String)
deriving DecidableEq, Repr

/-- `addPlayer(player)` (broadcasts are transport effects, not modelled). -/
def addPlayer (r : Room) (p : Player) : Room × AddResult :=
  if r.state = .playing ∨ r.state = .countdown then
    let p' := { p with roomId := some r.id, spectating := true }
    ({ r with players := playersSet p' r.players }, .success true)
  else if r.isFull then (r, .error "Room is full")
  else
    let p' := { p with
      roomId := some r.id,
      spectating := false,
      isRoomCreator := some p.id == r.creatorId }
    ({ r with players := playersSet p' r.players }, .success false)

/-- `_endGame(reason)`: stops timers (not modelled), snapshots standings,
records the `game_over` payload, resets every member's transient flags. -/
def endGame (r : Room) (reason : String) : Room :=
  if r.state = .ended then r
  else
    let standings := match r.engine with | some en => getStandings en | none => []
    let winner := standings.head?
    { r with
      state := .ended,
      gameOver := some ⟨reason, standings, winner, r.roundNumber⟩,
      players := r.players.map (fun p => { p with alive := false, spectating := false }) }

/-- `_checkGameEnd()`. -/
def checkGameEnd (r : Room) : Room :=
  match r.engine with
  | none => r
  | some en =>
    if r.state ≠ .playing then r
    else
      let alive := getAliveCount en
      let total := en.snakes.length
      let se : Option String :=
        match r.mode with
        | .lastStanding =>
          if 2 ≤ total ∧ alive ≤ 1 then some (if alive = 1 then "winner" else "draw")
          else if total = 1 ∧ alive = 0 then some "game_over"
          else none
        | .freePlay =>
          let connAlive := (r.players.filter (fun p => p.connected && p.alive)).length
          if connAlive = 0 ∧ 0 < total then some "all_dead" else none
        | .timed =>
          if 0 < total ∧ alive ≤ 1 then some (if alive = 1 then "winner" else "all_dead")
          else none
      match se with
      | some reason => endGame r reason
      | none => r

/-! ### Basic phase lemmas -/

theorem applyDeath_const (e : Engine) (p c : String) (k : Option String) :
    (applyDeath e p c k).tick = e.tick ∧
    (applyDeath e p c k).centerX = e.centerX ∧
    (applyDeath e p c k).centerY = e.centerY ∧
    (applyDeath e p c k).boundaryRadius = e.boundaryRadius ∧
    (applyDeath e p c k).powerups = e.powerups := by
  unfold applyDeath
  repeat' first
  | exact ⟨rfl, rfl, rfl, rfl, rfl⟩
  | split
  | dsimp only

theorem applyDeaths_const (ds : List DeathRec) (e : Engine) (killed : List String) :
    (applyDeaths e ds killed).tick = e.tick ∧
    (applyDeaths e ds killed).centerX = e.centerX ∧
    (applyDeaths e ds killed).centerY = e.centerY ∧
    (applyDeaths e ds killed).boundaryRadius = e.boundaryRadius ∧
    (applyDeaths e ds killed).powerups = e.powerups := by
  induction ds generalizing e killed with
  | nil => exact ⟨rfl, rfl, rfl, rfl, rfl⟩
  | cons d rest ih =>
    unfold applyDeaths
    by_cases h : killed.contains d.id
    · simp only [h, if_true]
      exact ih e killed
    · simp only [h, if_false]
      obtain ⟨h1, h2, h3, h4, h5⟩ := ih (applyDeath e d.id d.cause d.killerId) (d.id :: killed)
      obtain ⟨g1, g2, g3, g4, g5⟩ := applyDeath_const e d.id d.cause d.killerId
      exact ⟨h1.trans g1, h2.trans g2, h3.trans g3, h4.trans g4, h5.trans g5⟩

theorem detectCollisions_tick (o : Oracle) (e : Engine) :
    (detectCollisions o e).tick = e.tick :=
  (applyDeaths_const _ e []).1

theorem maybeSpawnPowerup_tick (o : Oracle) (e : Engine) :
    (maybeSpawnPowerup o e).tick = e.tick := by
  unfold maybeSpawnPowerup
  dsimp only
  split
  · rfl
  · split
    · rfl
    · split <;> rfl

/-- C5: each `update()` call increments the tick counter by exactly one and
returns the incremented value. -/
theorem update_increments_tick (o : Oracle) (e : Engine) :
    (update o e).1.tick = e.tick + 1 ∧ (update o e).2.1 = e.tick + 1 := by
  have h : (update o e).1.tick = e.tick + 1 := by
    show (maybeSpawnPowerup o _).tick = e.tick + 1
    rw [maybeSpawnPowerup_tick]
    show (maintainFood o _).tick = e.tick + 1
    show (tickActivePowerups _).tick = e.tick + 1
    show (checkPowerupPickup _).tick = e.tick + 1
    show (checkFood _).tick = e.tick + 1
    show (detectCollisions o _).tick = e.tick + 1
    rw [detectCollisions_tick]
    rfl
  exact ⟨h, h⟩

/-! ### Lookup/update lemmas -/

theorem findSnake_updateSnake (id : String) (f : Snake → Snake) (l : List Snake)
    (hf : ∀ s, (f s).id = s.id) :
    findSnake id (updateSnake id f l) = (findSnake id l).map f := by
  induction l with
  | nil => rfl
  | cons s rest ih =>
    unfold findSnake updateSnake
    unfold findSnake updateSnake at ih
    rw [List.map_cons]
    by_cases h : s.id = id
    · rw [if_pos h]
      rw [List.find?_cons_of_pos _ (by simp [hf s, h]),
        List.find?_cons_of_pos _ (by simp [h])]
      rfl
    · rw [if_neg h]
      rw [List.find?_cons_of_neg _ (by simp [hf s, h]),
        List.find?_cons_of_neg _ (by simp [h])]
      exact ih

/-! ### C9: removeSnake / queueInput idempotence -/

theorem findSnake_deleteSnake (id : String) (l : List Snake) :
    findSnake id (deleteSnake id l) = none := by
  unfold findSnake deleteSnake
  rw [List.find?_eq_none]
  intro s hs
  have h2 := List.of_mem_filter hs
  simp at h2
  simp [h2]

theorem deleteSnake_of_absent (id : String) (l : List Snake)
    (h : findSnake id l = none) : deleteSnake id l = l := by
  unfold findSnake at h
  unfold deleteSnake
  rw [List.filter_eq_self]
  intro s hs
  rw [List.find?_eq_none] at h
  have h2 := h s hs
  simp at h2 ⊢
  exact h2

/-- C9: for every engine state and id, the second of two `removeSnake` calls
with the same id leaves the engine unchanged (the first call deletes the id,
which maps to no snake afterwards); and for an id that maps to no snake,
`removeSnake` and `queueInput` are both no-ops.  All three operations are
total functions, so none can throw. -/
theorem removeSnake_queueInput_noop (e : Engine) (id : String) (a : JSNumber) (b : Bool) :
    removeSnake (removeSnake e id) id = removeSnake e id ∧
    findSnake id (removeSnake e id).snakes = none ∧
    (findSnake id e.snakes = none →
      removeSnake e id = e ∧ queueInput e id a b = e) := by
  refine ⟨?_, ?_, fun h => ⟨?_, ?_⟩⟩
  · unfold removeSnake
    congr 1
    unfold deleteSnake
    rw [List.filter_filter]
    congr 1
    funext s
    exact Bool.and_self _
  · exact findSnake_deleteSnake id e.snakes
  · show { e with snakes := deleteSnake id e.snakes } = e
    rw [deleteSnake_of_absent id e.snakes h]
  · unfold queueInput
    rw [h]

def snakeC9 : Snake :=
  ⟨"p", "pam", "classic", "#3B82F6", [⟨1500, 1500⟩], 0, 0, false, true, 0, 0, 10, 0,
    [], none, none, none, 0⟩

def engineC9 : Engine := ⟨3000, 1500, 1500, 1450, [snakeC9], [], [], [], 0, 1⟩

theorem removeSnake_queueInput_noop_witness :
    removeSnake (removeSnake engineC9 "p") "p" = removeSnake engineC9 "p" ∧
    findSnake "p" (removeSnake engineC9 "p").snakes = none ∧
    (removeSnake (removeSnake engineC9 "p") "p" = removeSnake engineC9 "p" ∧
      queueInput (removeSnake engineC9 "p") "p" (JSNumber.finite 1) true =
        removeSnake engineC9 "p") :=
  ⟨(removeSnake_queueInput_noop engineC9 "p" (JSNumber.finite 1) true).1,
    (removeSnake_queueInput_noop engineC9 "p" (JSNumber.finite 1) true).2.1,
    (removeSnake_queueInput_noop (removeSnake engineC9 "p") "p"
      (JSNumber.finite 1) true).2.2 (by decide)⟩

/-! ### C8: malformed input at the engine boundary -/

def snakeC8 : Snake :=
  ⟨"p", "u", "classic", "#3B82F6", [⟨1500, 1500⟩], 0, 0, false, true, 0, 0, 10, 0,
    [], none, none, none, 0⟩

def engineC8 : Engine := ⟨3000, 1500, 1500, 1450, [snakeC8], [], [], [], 0, 1⟩

/-- C8 counterexample: `queueInput` with a non-finite angle is *not* a
no-op — the guard only protects `targetAngle`, and `snake.boosting = !!boosting`
still runs, so the engine state changes. -/
theorem queueInput_nan_not_ignored :
    queueInput engineC8 "p" JSNumber.nan true ≠ engineC8 := by decide

/-- C8 amended: a `queueInput` with a non-finite angle leaves the target
snake's `targetAngle` and every other field unchanged, but still applies the
`boosting` argument to a living target snake. -/
theorem queueInput_nonfinite_only_boosting (e : Engine) (id : String) (a : JSNumber)
    (b : Bool) (s : Snake) (ha : a.isFinite = false)
    (hs : findSnake id e.snakes = some s) (halive : s.alive = true) :
    findSnake id (queueInput e id a b).snakes = some { s with boosting := b } := by
  unfold queueInput
  rw [hs]
  dsimp only
  rw [if_neg (by simp [halive])]
  show findSnake id (updateSnake id _ e.snakes) = _
  cases a with
  | finite q => simp [JSNumber.isFinite] at ha
  | nan =>
    rw [findSnake_updateSnake id (fun t => { t with boosting := b }) e.snakes (fun t => rfl), hs]
    rfl
  | posInf =>
    rw [findSnake_updateSnake id (fun t => { t with boosting := b }) e.snakes (fun t => rfl), hs]
    rfl
  | negInf =>
    rw [findSnake_updateSnake id (fun t => { t with boosting := b }) e.snakes (fun t => rfl), hs]
    rfl

theorem queueInput_nonfinite_only_boosting_witness :
    JSNumber.nan.isFinite = false ∧
    findSnake "p" engineC8.snakes = some snakeC8 ∧
    snakeC8.alive = true ∧
    findSnake "p" (queueInput engineC8 "p" JSNumber.nan true).snakes =
      some { snakeC8 with boosting := true } :=
  ⟨rfl, by decide, rfl,
    queueInput_nonfinite_only_boosting engineC8 "p" JSNumber.nan true snakeC8 rfl
      (by decide) rfl⟩

/-! ### C10: joins during PLAYING/COUNTDOWN bypass the capacity check -/

def findPlayer (id : String) (l : List Player) : Option Player :=
  l.find? (fun q => q.id = id)

theorem findPlayer_playersSet (p : Player) (l : List Player) :
    findPlayer p.id (playersSet p l) = some p := by
  unfold playersSet
  by_cases h : l.any (fun q => q.id == p.id)
  · rw [if_pos h]
    induction l with
    | nil => simp at h
    | cons q rest ih =>
      by_cases hq : q.id = p.id
      · unfold findPlayer
        rw [List.map_cons, if_pos (by simp [hq]),
          List.find?_cons_of_pos _ (by simp)]
      · unfold findPlayer
        rw [List.map_cons, if_neg (by simp [hq]),
          List.find?_cons_of_neg _ (by simp [hq])]
        have h' : rest.any (fun q => q.id == p.id) := by
          simpa [hq] using h
        exact ih h'
  · rw [if_neg h]
    unfold findPlayer
    induction l with
    | nil => simp
    | cons q rest ih =>
      have hq : ¬ q.id = p.id := by
        intro hc
        exact h (by simp [List.any_cons, hc])
      rw [List.cons_append, List.find?_cons_of_neg _ (by simp [hq])]
      exact ih (by
        intro hc
        exact h (by simp [List.any_cons] at hc ⊢; exact Or.inr hc))

theorem playersSet_length_of_fresh (p : Player) (l : List Player)
    (h : l.any (fun q => q.id == p.id) = false) :
    (playersSet p l).length = l.length + 1 := by
  unfold playersSet
  rw [if_neg (by simp [h])]
  simp

/-- C10: while the room is PLAYING or COUNTDOWN, `addPlayer` always succeeds
as a spectator without any capacity check (the player is stored with
`spectating = true`, and a fresh id grows the member count even past
`maxPlayers`); the "Room is full" rejection can only arise in the WAITING or
ENDED states. -/
theorem addPlayer_spectator_policy (r : Room) (p : Player) :
    ((r.state = RoomState.playing ∨ r.state = RoomState.countdown) →
      (addPlayer r p).2 = AddResult.success true ∧
      findPlayer p.id (addPlayer r p).1.players =
        some { p with roomId := some r.id, spectating := true } ∧
      (r.players.any (fun q => q.id == p.id) = false →
        (addPlayer r p).1.players.length = r.players.length + 1)) ∧
    (∀ msg, (addPlayer r p).2 = AddResult.error msg →
      (r.state = RoomState.waiting ∨ r.state = RoomState.ended) ∧ r.isFull = true) := by
  constructor
  · intro hstate
    unfold addPlayer
    rw [if_pos hstate]
    refine ⟨rfl, ?_, ?_⟩
    · exact findPlayer_playersSet { p with roomId := some r.id, spectating := true } r.players
    · intro hfresh
      exact playersSet_length_of_fresh { p with roomId := some r.id, spectating := true }
        r.players hfresh
  · intro msg herr
    unfold addPlayer at herr
    by_cases hstate : r.state = RoomState.playing ∨ r.state = RoomState.countdown
    · rw [if_pos hstate] at herr
      simp at herr
    · rw [if_neg hstate] at herr
      by_cases hfull : r.isFull
      · refine ⟨?_, hfull⟩
        cases hs : r.state with
        | waiting => exact Or.inl rfl
        | ended => exact Or.inr rfl
        | playing => exact absurd (Or.inl hs) hstate
        | countdown => exact absurd (Or.inr hs) hstate
      · rw [if_neg hfull] at herr
        simp at herr

def playerC10a : Player := ⟨"a", "alice", true, true, false, some "r1", true⟩

def playerC10b : Player := ⟨"b", "bob", true, true, false, some "r1", false⟩

def playerC10c : Player := ⟨"c", "charlie", true, false, false, none, false⟩

def roomC10 : Room :=
  ⟨"r1", "Room-r1", some "a", .playing, 3000, 2, .lastStanding,
    [playerC10a, playerC10b], none, 0, none⟩

theorem addPlayer_spectator_policy_witness :
    (roomC10.state = RoomState.playing ∨ roomC10.state = RoomState.countdown) ∧
    roomC10.isFull = true ∧
    (addPlayer roomC10 playerC10c).2 = AddResult.success true ∧
    (addPlayer roomC10 playerC10c).1.players.length = roomC10.players.length + 1 ∧
    roomC10.maxPlayers < (addPlayer roomC10 playerC10c).1.players.length :=
  ⟨Or.inl rfl, by decide,
    ((addPlayer_spectator_policy roomC10 playerC10c).1 (Or.inl rfl)).1,
    ((addPlayer_spectator_policy roomC10 playerC10c).1 (Or.inl rfl)).2.2 (by decide),
    by decide⟩

/-! ### C3: last-standing end condition -/

/-- C3: with the room PLAYING in last-standing mode, `_checkGameEnd` ends
the game with reason `"winner"`/`"draw"` when the engine holds at least two
snakes and at most one is alive, and with reason `"game_over"` when it holds
exactly one snake and none is alive. -/
theorem checkGameEnd_lastStanding (r : Room) (en : Engine)
    (hengine : r.engine = some en) (hstate : r.state = RoomState.playing)
    (hmode : r.mode = GameMode.lastStanding) :
    (2 ≤ en.snakes.length ∧ getAliveCount en ≤ 1 →
      (checkGameEnd r).state = RoomState.ended ∧
      (checkGameEnd r).gameOver.map (·.reason) =
        some (if getAliveCount en = 1 then "winner" else "draw")) ∧
    (en.snakes.length = 1 ∧ getAliveCount en = 0 →
      (checkGameEnd r).state = RoomState.ended ∧
      (checkGameEnd r).gameOver.map (·.reason) = some "game_over") := by
  unfold checkGameEnd
  rw [hengine]
  dsimp only
  rw [if_neg (by simp [hstate]), hmode]
  dsimp only
  constructor
  · rintro ⟨h1, h2⟩
    rw [if_pos ⟨h1, h2⟩]
    dsimp only
    unfold endGame
    rw [if_neg (by simp [hstate]), hengine]
    dsimp only
    exact ⟨rfl, rfl⟩
  · rintro ⟨h1, h2⟩
    rw [if_neg (by omega), if_pos ⟨h1, h2⟩]
    dsimp only
    unfold endGame
    rw [if_neg (by simp [hstate]), hengine]
    dsimp only
    exact ⟨rfl, rfl⟩

def snakeC3a : Snake :=
  ⟨"a", "alice", "classic", "#EF4444", [⟨1500, 1500⟩, ⟨1497, 1500⟩], 0, 0, false, true,
    40, 1, 10, 0, [], none, none, none, 0⟩

def snakeC3b : Snake :=
  ⟨"b", "bob", "classic", "#22C55E", [⟨1400, 1400⟩, ⟨1397, 1400⟩], 0, 0, false, false,
    90, 0, 10, 0, [], some 10, some "wall", none, 0⟩

def engineC3 : Engine := ⟨3000, 1500, 1500, 1450, [snakeC3a, snakeC3b], [], [], [], 10, 1⟩

def roomC3 : Room :=
  ⟨"r3", "Room-r3", some "a", .playing, 3000, 6, .lastStanding, [], some engineC3, 1, none⟩

theorem checkGameEnd_lastStanding_witness :
    roomC3.engine = some engineC3 ∧ roomC3.state = RoomState.playing ∧
    roomC3.mode = GameMode.lastStanding ∧
    (2 ≤ engineC3.snakes.length ∧ getAliveCount engineC3 ≤ 1) ∧
    ((checkGameEnd roomC3).state = RoomState.ended ∧
      (checkGameEnd roomC3).gameOver.map (·.reason) =
        some (if getAliveCount engineC3 = 1 then "winner" else "draw")) :=
  ⟨rfl, rfl, rfl, ⟨by decide, by decide⟩,
    (checkGameEnd_lastStanding roomC3 engineC3 rfl rfl rfl).1 ⟨by decide, by decide⟩⟩

/-! ### C6: leaderboard and standings ordering -/

theorem lbLe_trans : ∀ a b c : Snake, lbLe a b = true → lbLe b c = true → lbLe a c = true := by
  intro a b c
  simp only [lbLe, lbCmp, decide_eq_true_eq]
  split_ifs <;> omega

theorem lbLe_total : ∀ a b : Snake, (lbLe a b || lbLe b a) = true := by
  intro a b
  simp only [lbLe, lbCmp, Bool.or_eq_true, decide_eq_true_eq]
  split_ifs <;> omega

theorem deadLe_trans : ∀ a b c : Snake,
    deadLe a b = true → deadLe b c = true → deadLe a c = true := by
  intro a b c
  simp only [deadLe, deadCmp, decide_eq_true_eq]
  omega

theorem deadLe_total : ∀ a b : Snake, (deadLe a b || deadLe b a) = true := by
  intro a b
  simp only [deadLe, deadCmp, Bool.or_eq_true, decide_eq_true_eq]
  omega

theorem standLe_trans : ∀ a b c : Snake,
    standLe a b = true → standLe b c = true → standLe a c = true := by
  intro a b c
  simp only [standLe, standCmp, decide_eq_true_eq]
  cases ha : a.alive <;> cases hb : b.alive <;> cases hc : c.alive <;>
    simp <;> split_ifs <;> omega

theorem standLe_total : ∀ a b : Snake, (standLe a b || standLe b a) = true := by
  intro a b
  simp only [standLe, standCmp, Bool.or_eq_true, decide_eq_true_eq]
  cases ha : a.alive <;> cases hb : b.alive <;> simp <;> split_ifs <;> omega

theorem mem_mapIdx_ex {α β : Type _} (t : List α) :
    ∀ (g : ℕ → α → β) (b : β), b ∈ t.mapIdx g → ∃ i x, x ∈ t ∧ b = g i x := by
  induction t with
  | nil =>
    intro g b hb
    rw [List.mapIdx_nil] at hb
    cases hb
  | cons a s ih =>
    intro g b hb
    rw [List.mapIdx_cons] at hb
    rcases List.mem_cons.mp hb with h | h
    · exact ⟨0, a, List.mem_cons_self a s, h⟩
    · obtain ⟨i, x, hx, rfl⟩ := ih _ _ h
      exact ⟨i + 1, x, List.mem_cons_of_mem a hx, rfl⟩

theorem pairwise_mapIdx {α β : Type _} (l : List α) (R : β → β → Prop) (S : α → α → Prop) :
    ∀ (f : ℕ → α → β), l.Pairwise S → (∀ i j a b, S a b → R (f i a) (f j b)) →
      (l.mapIdx f).Pairwise R := by
  induction l with
  | nil =>
    intro f _ _
    rw [List.mapIdx_nil]
    exact List.Pairwise.nil
  | cons a t ih =>
    intro f hp hf
    rw [List.mapIdx_cons]
    rcases List.pairwise_cons.mp hp with ⟨ha, ht⟩
    refine List.Pairwise.cons ?_ (ih _ ht (fun i j x y hxy => hf _ _ _ _ hxy))
    intro b hb
    obtain ⟨i, x, hx, rfl⟩ := mem_mapIdx_ex _ _ _ hb
    exact hf 0 (i + 1) a x (ha x hx)

theorem lbLe_imp (s t : Snake) (h : lbLe s t = true) :
    t.score < s.score ∨ (s.score = t.score ∧ t.length ≤ s.length) := by
  simp only [lbLe, lbCmp, decide_eq_true_eq] at h
  split_ifs at h <;> omega

theorem deadLe_imp (s t : Snake) (h : deadLe s t = true) :
    t.deathTick.getD 0 ≤ s.deathTick.getD 0 := by
  simp only [deadLe, deadCmp, decide_eq_true_eq] at h
  omega

theorem standLe_imp (s t : Snake) (h : standLe s t = true) :
    (s.alive = true ∧ t.alive = false) ∨
    (s.alive = t.alive ∧ (t.score < s.score ∨ (s.score = t.score ∧ t.length ≤ s.length))) := by
  simp only [standLe, standCmp, decide_eq_true_eq] at h
  cases ha : s.alive <;> cases hb : t.alive <;> rw [ha, hb] at h <;> simp at h ⊢ <;>
    split_ifs at h <;> omega

/-- C6: `getLeaderboard().alive` is sorted descending by score, ties broken
by length; `getLeaderboard().dead` is sorted by most-recent death first; and
`getStandings()` puts every alive snake before every dead one, then sorts by
score and length. -/
theorem leaderboard_standings_sorted (e : Engine) :
    (getLeaderboard e).alive.Pairwise (fun x y =>
      y.score < x.score ∨ (x.score = y.score ∧ y.length ≤ x.length)) ∧
    (getLeaderboard e).dead.Pairwise (fun x y =>
      y.deathTick.getD 0 ≤ x.deathTick.getD 0) ∧
    (getStandings e).Pairwise (fun x y =>
      (x.alive = true ∧ y.alive = false) ∨
      (x.alive = y.alive ∧
        (y.score < x.score ∨ (x.score = y.score ∧ y.length ≤ x.length)))) := by
  refine ⟨?_, ?_, ?_⟩
  · exact pairwise_mapIdx _ _ _ _
      (List.sorted_mergeSort lbLe_trans lbLe_total (e.snakes.filter (·.alive)))
      (fun i j a b hab => lbLe_imp a b hab)
  · exact pairwise_mapIdx _ _ _ _
      (List.sorted_mergeSort deadLe_trans deadLe_total
        (e.snakes.filter (fun s => !s.alive && s.deathTick.isSome)))
      (fun i j a b hab => deadLe_imp a b hab)
  · exact pairwise_mapIdx _ _ _ _
      (List.sorted_mergeSort standLe_trans standLe_total e.snakes)
      (fun i j a b hab => standLe_imp a b hab)

/-! ### C7: death application and killer credit -/

theorem findSnake_updateSnake_ne (id pid : String) (f : Snake → Snake) (l : List Snake)
    (hne : id ≠ pid) (hf : ∀ s, (f s).id = s.id) :
    findSnake id (updateSnake pid f l) = findSnake id l := by
  induction l with
  | nil => rfl
  | cons s rest ih =>
    unfold findSnake updateSnake
    unfold findSnake updateSnake at ih
    rw [List.map_cons]
    by_cases h : s.id = pid
    · rw [if_pos h]
      rw [List.find?_cons_of_neg _ (by simp [hf s, h]; exact fun hc => hne hc.symm),
        List.find?_cons_of_neg _ (by simp [h]; exact fun hc => hne hc.symm)]
      exact ih
    · rw [if_neg h]
      by_cases h2 : s.id = id
      · rw [List.find?_cons_of_pos _ (by simp [h2]), List.find?_cons_of_pos _ (by simp [h2])]
      · rw [List.find?_cons_of_neg _ (by simp [h2]), List.find?_cons_of_neg _ (by simp [h2])]
        exact ih

/-- C7 amended: when a death with a non-null `killerId` is applied and the
killer is *still alive* at that moment, the killer is credited +1 kill and
+50 score and a `kill` event is emitted, followed by the always-emitted
`death` event carrying the victim's final score and length. -/
theorem applyDeath_killer_credit (e : Engine) (pid kid cause : String)
    (v k : Snake) (hv : findSnake pid e.snakes = some v) (hva : v.alive = true)
    (hk : findSnake kid e.snakes = some k) (hka : k.alive = true) (hne : kid ≠ pid) :
    findSnake kid (applyDeath e pid cause (some kid)).snakes =
      some { k with kills := k.kills + 1, score := k.score + 50 } ∧
    (applyDeath e pid cause (some kid)).events =
      e.events ++
        [GameEvent.kill kid k.username pid v.username cause,
          GameEvent.death pid v.username v.color cause (some kid) v.score v.length e.tick] := by
  unfold applyDeath
  rw [hv]
  dsimp only
  rw [if_neg (by simp [hva])]
  rw [findSnake_updateSnake_ne kid pid
    (fun t => { t with alive := false, deathTick := some e.tick, deathCause := some cause, killedBy := some kid }) e.snakes hne (fun t => rfl), hk]
  dsimp only
  rw [if_pos hka]
  constructor
  · show findSnake kid (updateSnake kid _ (updateSnake pid _ e.snakes)) = _
    rw [findSnake_updateSnake kid (fun t =>
        { t with kills := t.kills + 1, score := t.score + 50 })
        (updateSnake pid (fun t => { t with alive := false, deathTick := some e.tick, deathCause := some cause, killedBy := some kid }) e.snakes) (fun t => rfl)]
    rw [findSnake_updateSnake_ne kid pid
      (fun t => { t with alive := false, deathTick := some e.tick, deathCause := some cause, killedBy := some kid }) e.snakes hne (fun t => rfl), hk]
    rfl
  · show (e.events ++ _) ++ _ = _
    rw [List.append_assoc]
    rfl

def snakeC7a : Snake :=
  ⟨"a", "alice", "classic", "#EF4444", [⟨1400, 1500⟩], 0, 0, false, false,
    20, 0, 10, 0, [], some 5, some "wall", none, 0⟩

def snakeC7b : Snake :=
  ⟨"b", "bob", "classic", "#22C55E", [⟨1400, 1510⟩], 0, 0, false, true,
    30, 0, 10, 0, [], none, none, none, 0⟩

def engineC7 : Engine := ⟨3000, 1500, 1500, 1450, [snakeC7a, snakeC7b], [], [], [], 6, 1⟩

/-- C7 counterexample: a death applied with a non-null `killerId` whose
killer is already dead (wall death applied earlier in the same tick's pass)
credits nothing and emits no `kill` event — only the `death` event — against
the claim's unconditional "+1 kill, +50 score and a kill event". -/
theorem applyDeath_dead_killer_uncredited :
    (applyDeath engineC7 "b" "collision" (some "a")).snakes.map
        (fun s => (s.id, s.kills, s.score, s.alive)) =
      [("a", 0, 20, false), ("b", 0, 30, false)] ∧
    (applyDeath engineC7 "b" "collision" (some "a")).events =
      [GameEvent.death "b" "bob" "#22C55E" "collision" (some "a") 30 10 6] := by
  decide

def snakeC7v : Snake :=
  ⟨"v", "vera", "classic", "#EAB308", [⟨1500, 1500⟩], 0, 0, false, true,
    10, 0, 10, 0, [], none, none, none, 0⟩

def snakeC7k : Snake :=
  ⟨"k", "kim", "classic", "#14B8A6", [⟨1450, 1500⟩], 0, 0, false, true,
    25, 2, 12, 0, [], none, none, none, 0⟩

def engineC7w : Engine := ⟨3000, 1500, 1500, 1450, [snakeC7v, snakeC7k], [], [], [], 3, 1⟩

theorem applyDeath_killer_credit_witness :
    findSnake "v" engineC7w.snakes = some snakeC7v ∧ snakeC7v.alive = true ∧
    findSnake "k" engineC7w.snakes = some snakeC7k ∧ snakeC7k.alive = true ∧
    ("k" : String) ≠ "v" ∧
    (findSnake "k" (applyDeath engineC7w "v" "collision" (some "k")).snakes =
        some { snakeC7k with kills := snakeC7k.kills + 1, score := snakeC7k.score + 50 } ∧
      (applyDeath engineC7w "v" "collision" (some "k")).events =
        engineC7w.events ++
          [GameEvent.kill "k" snakeC7k.username "v" snakeC7v.username "collision",
            GameEvent.death "v" snakeC7v.username snakeC7v.color "collision" (some "k")
              snakeC7v.score snakeC7v.length engineC7w.tick]) :=
  ⟨by decide, rfl, by decide, rfl, by decide,
    applyDeath_killer_credit engineC7w "v" "k" "collision" snakeC7v snakeC7k
      (by decide) rfl (by decide) rfl (by decide)⟩

/-! ### C2: segment-count bounds -/

/-- A concrete oracle for witnesses and counterexamples (its values only
stand in for `Math.cos`/`Math.sin`/`Math.sqrt`; the universally quantified
theorems hold for every oracle). -/
def oracle0 : Oracle := ⟨fun _ => 1, fun _ => 0, fun q => q⟩

def segsC2 : List Point := (List.range 14).map (fun i => ⟨⟨1500 - 3 * (i : ℤ), 1⟩, 1500⟩)

def snakeC2 : Snake :=
  ⟨"p", "pam", "classic", "#3B82F6", segsC2, 0, 0, true, true, 0, 0, 14, 0,
    [], none, none, none, 0⟩

def engineC2 : Engine := ⟨3000, 1500, 1500, 1450, [snakeC2], [], [], [], 4, 1⟩

set_option maxRecDepth 8000 in
/-- C2 counterexample: on a boost-cost tick (`tick % 5 = 0`) the boosting
snake's `length` is decremented after the body was already trimmed to
`length + growPending`, so after that `update()` the snake has
`segments.length = 14 > 13 = length + growPending`. -/
theorem segments_exceed_target_on_boost_tick :
    ¬ (∀ s ∈ (update oracle0 engineC2).1.snakes,
        s.segments.length ≤ s.length + s.growPending) := by
  decide

/-- The bound that survives every `update()`: the hard cap always holds, and
`segments.length` can overshoot `length + growPending` by at most one (the
boost trim). -/
def segBounds (s : Snake) : Prop :=
  s.segments.length ≤ s.length + s.growPending + 1 ∧
  s.segments.length ≤ MAX_SNAKE_SEGMENTS

instance (s : Snake) : Decidable (segBounds s) := by
  unfold segBounds
  infer_instance

set_option maxHeartbeats 1000000 in
theorem moveSnakeTail_bounds (o : Oracle) (tick : ℕ) (cx cy R : Q) (canBoost : Bool)
    (angle : Q) (newHead : Point) (s : Snake) :
    segBounds (moveSnakeTail o tick cx cy R canBoost angle newHead s).1 := by
  unfold segBounds moveSnakeTail
  dsimp only
  simp only [ghostWrap_length]
  repeat' split
  all_goals simp only [List.length_cons, List.length_nil, List.length_take,
    MAX_SNAKE_SEGMENTS, INITIAL_SNAKE_LENGTH, BOOST_COST_INTERVAL] at *
  all_goals omega

theorem moveSnake_bounds (o : Oracle) (tick : ℕ) (cx cy R : Q) (s : Snake) :
    segBounds (moveSnake o tick cx cy R s).1 :=
  moveSnakeTail_bounds o tick cx cy R _ _ _ s

theorem updateSnake_preserves {P : Snake → Prop} (id : String) (f : Snake → Snake)
    (l : List Snake) (hl : ∀ s ∈ l, P s) (hf : ∀ s, P s → P (f s)) :
    ∀ s' ∈ updateSnake id f l, P s' := by
  intro s' hs'
  obtain ⟨s, hs, rfl⟩ := List.mem_map.mp hs'
  by_cases h : s.id = id
  · rw [if_pos h]
    exact hf s (hl s hs)
  · rw [if_neg h]
    exact hl s hs

theorem applyDeath_segBounds (e : Engine) (pid c : String) (k : Option String)
    (h : ∀ s ∈ e.snakes, segBounds s) :
    ∀ s' ∈ (applyDeath e pid c k).snakes, segBounds s' := by
  unfold applyDeath
  repeat' first
  | exact h
  | exact updateSnake_preserves _ _ _ h (fun s hs => hs)
  | exact updateSnake_preserves _ _ _
      (updateSnake_preserves _ _ _ h (fun s hs => hs)) (fun s hs => hs)
  | split
  | dsimp only

theorem applyDeaths_segBounds (ds : List DeathRec) (e : Engine) (killed : List String)
    (h : ∀ s ∈ e.snakes, segBounds s) :
    ∀ s' ∈ (applyDeaths e ds killed).snakes, segBounds s' := by
  induction ds generalizing e killed with
  | nil => exact h
  | cons d rest ih =>
    unfold applyDeaths
    by_cases hc : killed.contains d.id
    · rw [if_pos hc]
      exact ih e killed h
    · rw [if_neg hc]
      exact ih _ _ (applyDeath_segBounds e d.id d.cause d.killerId h)

theorem moveSnakesGo_segBounds (o : Oracle) (tick : ℕ) (cx cy R : Q) (l : List Snake)
    (hpre : ∀ s ∈ l, s.alive = false → segBounds s) :
    ∀ s' ∈ (moveSnakesGo o tick cx cy R l).1, segBounds s' := by
  induction l with
  | nil => intro s' hs'; cases hs'
  | cons s rest ih =>
    unfold moveSnakesGo
    by_cases h : s.alive
    · rw [if_pos h]
      intro s' hs'
      rcases List.mem_cons.mp hs' with rfl | hmem
      · exact moveSnake_bounds o tick cx cy R s
      · exact ih (fun t ht ha => hpre t (List.mem_cons_of_mem s ht) ha) s' hmem
    · rw [if_neg h]
      intro s' hs'
      rcases List.mem_cons.mp hs' with rfl | hmem
      · exact hpre s' (List.mem_cons_self _ _) (by simpa using h)
      · exact ih (fun t ht ha => hpre t (List.mem_cons_of_mem s ht) ha) s' hmem

theorem checkFoodGo_segBounds (l : List Snake) :
    ∀ (food : List FoodItem), (∀ s ∈ l, segBounds s) →
      ∀ s' ∈ (checkFoodGo l food).1, segBounds s' := by
  induction l with
  | nil => intro food _ s' hs'; cases hs'
  | cons s rest ih =>
    intro food h
    unfold checkFoodGo
    by_cases ha : s.alive
    · rw [if_pos ha]
      intro s' hs'
      rcases List.mem_cons.mp hs' with rfl | hmem
      · have := h s (List.mem_cons_self _ _)
        unfold segBounds at this ⊢
        dsimp only at *
        omega
      · exact ih _ (fun t ht => h t (List.mem_cons_of_mem s ht)) s' hmem
    · rw [if_neg ha]
      intro s' hs'
      rcases List.mem_cons.mp hs' with rfl | hmem
      · exact h s' (List.mem_cons_self _ _)
      · exact ih _ (fun t ht => h t (List.mem_cons_of_mem s ht)) s' hmem

theorem checkPowerupPickupGo_segBounds (l : List Snake) :
    ∀ (pus : List Powerup), (∀ s ∈ l, segBounds s) →
      ∀ s' ∈ (checkPowerupPickupGo l pus).1, segBounds s' := by
  induction l with
  | nil => intro pus _ s' hs'; cases hs'
  | cons s rest ih =>
    intro pus h
    unfold checkPowerupPickupGo
    by_cases ha : s.alive
    · rw [if_pos ha]
      intro s' hs'
      dsimp only at hs'
      rcases hps : (pickScan s pus).2 with _ | pu <;> rw [hps] at hs' <;> dsimp only at hs'
      · rcases List.mem_cons.mp hs' with rfl | hmem
        · exact h s' (List.mem_cons_self _ _)
        · exact ih _ (fun t ht => h t (List.mem_cons_of_mem s ht)) s' hmem
      · rcases List.mem_cons.mp hs' with rfl | hmem
        · have hb := h s (List.mem_cons_self _ _)
          unfold segBounds at hb ⊢
          exact hb
        · exact ih _ (fun t ht => h t (List.mem_cons_of_mem s ht)) s' hmem
    · rw [if_neg ha]
      intro s' hs'
      rcases List.mem_cons.mp hs' with rfl | hmem
      · exact h s' (List.mem_cons_self _ _)
      · exact ih _ (fun t ht => h t (List.mem_cons_of_mem s ht)) s' hmem

theorem tickActivePowerups_segBounds (e : Engine) (h : ∀ s ∈ e.snakes, segBounds s) :
    ∀ s' ∈ (tickActivePowerups e).snakes, segBounds s' := by
  intro s' hs'
  obtain ⟨s, hs, rfl⟩ := List.mem_map.mp hs'
  by_cases ha : s.alive
  · rw [if_pos ha]
    exact h s hs
  · rw [if_neg ha]
    exact h s hs

theorem maintainFood_snakes (o : Oracle) (e : Engine) :
    (maintainFood o e).snakes = e.snakes := rfl

theorem maybeSpawnPowerup_snakes (o : Oracle) (e : Engine) :
    (maybeSpawnPowerup o e).snakes = e.snakes := by
  unfold maybeSpawnPowerup
  dsimp only
  split
  · rfl
  · split
    · rfl
    · split <;> rfl

/-- C2 amended: after every `update()` call, every snake satisfies
`segments.length ≤ length + growPending + 1` (the boost trim can overshoot
the target by exactly one) and `segments.length ≤ MAX_SNAKE_SEGMENTS`,
provided the already-dead snakes (which the tick never touches) satisfied
the same bound before. -/
theorem update_segBounds (o : Oracle) (e : Engine)
    (hpre : ∀ s ∈ e.snakes, s.alive = false → segBounds s) :
    ∀ s' ∈ (update o e).1.snakes, segBounds s' := by
  show ∀ s' ∈ (maybeSpawnPowerup o _).snakes, segBounds s'
  rw [maybeSpawnPowerup_snakes, maintainFood_snakes]
  apply tickActivePowerups_segBounds
  apply checkPowerupPickupGo_segBounds
  apply checkFoodGo_segBounds
  apply applyDeaths_segBounds
  exact moveSnakesGo_segBounds o (e.tick + 1) e.centerX e.centerY e.boundaryRadius
    e.snakes hpre

theorem update_segBounds_witness :
    (∀ s ∈ engineC2.snakes, s.alive = false → segBounds s) ∧
    ∀ s' ∈ (update oracle0 engineC2).1.snakes, segBounds s' :=
  ⟨by decide, update_segBounds oracle0 engineC2 (by decide)⟩

/-! ### C4: boundary deaths -/

theorem findSnake_map (id : String) (f : Snake → Snake) (l : List Snake)
    (hf : ∀ t, (f t).id = t.id) :
    findSnake id (l.map f) = (findSnake id l).map f := by
  induction l with
  | nil => rfl
  | cons s rest ih =>
    unfold findSnake at *
    rw [List.map_cons]
    by_cases h : s.id = id
    · rw [List.find?_cons_of_pos _ (by simp [hf s, h]),
        List.find?_cons_of_pos _ (by simp [h])]
      rfl
    · rw [List.find?_cons_of_neg _ (by simp [hf s, h]),
        List.find?_cons_of_neg _ (by simp [h])]
      exact ih

theorem wallSelfDeath_some (o : Oracle) (cx cy R : Q) (t : Snake) (d : DeathRec)
    (h : wallSelfDeath o cx cy R t = some d) : d.id = t.id ∧ d.killerId = none := by
  unfold wallSelfDeath at h
  split at h
  · cases h
  · split at h
    · cases h
      exact ⟨rfl, rfl⟩
    · split at h
      · cases h
        exact ⟨rfl, rfl⟩
      · cases h

theorem wallSelfDeath_of (o : Oracle) (cx cy R : Q) (s : Snake)
    (halive : s.alive = true) (hghost : s.hasEffect "ghost" = false)
    (hout : boundaryOut o cx cy R s = true) :
    wallSelfDeath o cx cy R s = some ⟨s.id, "wall", none⟩ := by
  unfold wallSelfDeath
  rw [if_neg (by simp [halive]), if_pos (by simp [hout, hghost])]

theorem phase1Deaths_split (o : Oracle) (cx cy R : Q) (id : String) (s : Snake) :
    ∀ l : List Snake, findSnake id l = some s →
      wallSelfDeath o cx cy R s = some ⟨id, "wall", none⟩ →
      ∃ ds1 ds2, phase1Deaths o cx cy R l = ds1 ++ ⟨id, "wall", none⟩ :: ds2 ∧
        ∀ d ∈ ds1, d.id ≠ id ∧ d.killerId = none := by
  intro l
  induction l with
  | nil => intro hs; cases hs
  | cons t rest ih =>
    intro hs hd
    unfold phase1Deaths
    rw [List.filterMap_cons]
    by_cases h : t.id = id
    · have hts : t = s := by
        unfold findSnake at hs
        rw [List.find?_cons_of_pos _ (by simp [h])] at hs
        exact Option.some.inj hs
      subst hts
      rw [hd]
      exact ⟨[], _, rfl, by simp⟩
    · have hs' : findSnake id rest = some s := by
        unfold findSnake at hs ⊢
        rwa [List.find?_cons_of_neg _ (by simp [h])] at hs
      obtain ⟨ds1, ds2, heq, hprop⟩ := ih hs' hd
      cases hw : wallSelfDeath o cx cy R t with
      | none =>
        refine ⟨ds1, ds2, ?_, hprop⟩
        simp only [hw]
        unfold phase1Deaths at heq
        rw [heq]
      | some d =>
        refine ⟨d :: ds1, ds2, ?_, ?_⟩
        · simp only [hw]
          unfold phase1Deaths at heq
          rw [heq]
          simp
        · intro d' hd'
          rcases List.mem_cons.mp hd' with rfl | hmem
          · obtain ⟨hid, hk⟩ := wallSelfDeath_some o cx cy R t d' hw
            exact ⟨hid ▸ h, hk⟩
          · exact hprop d' hmem

theorem crossInner_extends (i : ℕ) (A : Snake) :
    ∀ (l : List (ℕ × Snake)) (ds : List DeathRec),
      ∃ t, crossInner i A l ds = ds ++ t := by
  intro l
  induction l with
  | nil => intro ds; exact ⟨[], by simp [crossInner]⟩
  | cons jB rest ih =>
    intro ds
    obtain ⟨j, B⟩ := jB
    have ihx : ∀ (u : List DeathRec), ∃ t, crossInner i A rest (ds ++ u) = ds ++ t := by
      intro u
      obtain ⟨t, ht⟩ := ih (ds ++ u)
      exact ⟨u ++ t, by rw [ht, List.append_assoc]⟩
    unfold crossInner
    dsimp only
    repeat' split
    all_goals first
    | exact ih ds
    | exact ihx _
    | exact ⟨[], (List.append_nil ds).symm⟩
    | (split <;> first | exact ih ds | exact ihx _)

theorem crossOuter_extends (all : List (ℕ × Snake)) :
    ∀ (l : List (ℕ × Snake)) (ds : List DeathRec),
      ∃ t, crossOuter all l ds = ds ++ t := by
  intro l
  induction l with
  | nil => intro ds; exact ⟨[], by simp [crossOuter]⟩
  | cons iA rest ih =>
    intro ds
    unfold crossOuter
    obtain ⟨i, A⟩ := iA
    split
    · exact ih ds
    · obtain ⟨t1, ht1⟩ := crossInner_extends i A all ds
      obtain ⟨t2, ht2⟩ := ih (crossInner i A all ds)
      exact ⟨t1 ++ t2, by rw [ht2, ht1, List.append_assoc]⟩

theorem applyDeath_other_nokiller (e : Engine) (pid c id : String) (hne : pid ≠ id) :
    findSnake id (applyDeath e pid c none).snakes = findSnake id e.snakes := by
  unfold applyDeath
  split
  · rfl
  next v heq =>
    by_cases hva : v.alive
    · rw [if_neg (by simp [hva])]
      dsimp only
      apply findSnake_updateSnake_ne
      · exact Ne.symm hne
      · intro t
        rfl
    · rw [if_pos (by simp [hva])]

theorem applyDeath_frozen (e : Engine) (pid c : String) (k : Option String) (id : String)
    (s : Snake) (hs : findSnake id e.snakes = some s) (hdead : s.alive = false) :
    findSnake id (applyDeath e pid c k).snakes = some s := by
  unfold applyDeath
  split
  · exact hs
  next v heq =>
    by_cases hva : v.alive
    · rw [if_neg (by simp [hva])]
      have hpid : pid ≠ id := by
        intro hpe
        rw [hpe, hs] at heq
        have hv2 : v = s := (Option.some.inj heq).symm
        rw [hv2, hdead] at hva
        exact absurd hva (by decide)
      have h1 : findSnake id (updateSnake pid (fun t =>
          { t with
            alive := false, deathTick := some e.tick, deathCause := some c,
            killedBy := k }) e.snakes) = some s := by
        rw [findSnake_updateSnake_ne id pid (fun t =>
          { t with
            alive := false, deathTick := some e.tick, deathCause := some c,
            killedBy := k }) e.snakes (Ne.symm hpid) (fun t => rfl)]
        exact hs
      dsimp only
      cases k with
      | none => exact h1
      | some kid =>
        by_cases hkid : kid = id
        · subst hkid
          simp only [h1]
          rw [if_neg (by simp [hdead])]
          exact h1
        · cases hfk : findSnake kid (updateSnake pid (fun t =>
              { t with
                alive := false, deathTick := some e.tick, deathCause := some c,
                killedBy := some kid }) e.snakes) with
          | none =>
            simp only [hfk]
            exact h1
          | some killer =>
            simp only [hfk]
            by_cases hka : killer.alive
            · rw [if_pos hka]
              dsimp only
              rw [findSnake_updateSnake_ne id kid (fun t =>
                { t with kills := t.kills + 1, score := t.score + 50 }) _
                (Ne.symm hkid) (fun t => rfl)]
              exact h1
            · rw [if_neg hka]
              exact h1
    · rw [if_pos (by simp [hva])]
      exact hs

theorem applyDeaths_frozen (ds : List DeathRec) (e : Engine) (killed : List String)
    (id : String) (s : Snake) (hs : findSnake id e.snakes = some s)
    (hdead : s.alive = false) :
    findSnake id (applyDeaths e ds killed).snakes = some s := by
  induction ds generalizing e killed with
  | nil => exact hs
  | cons d rest ih =>
    unfold applyDeaths
    by_cases hc : killed.contains d.id
    · rw [if_pos hc]
      exact ih e killed hs
    · rw [if_neg hc]
      exact ih _ _ (applyDeath_frozen e d.id d.cause d.killerId id s hs hdead)

theorem applyDeath_kill (e : Engine) (id : String) (s : Snake)
    (hs : findSnake id e.snakes = some s) (halive : s.alive = true) :
    findSnake id (applyDeath e id "wall" none).snakes =
      some { s with
        alive := false, deathTick := some e.tick,
        deathCause := some "wall", killedBy := none } := by
  unfold applyDeath
  rw [hs]
  dsimp only
  rw [if_neg (by simp [halive])]
  dsimp only
  rw [findSnake_updateSnake id (fun t =>
    { t with
      alive := false, deathTick := some e.tick, deathCause := some "wall",
      killedBy := none }) e.snakes (fun t => rfl), hs]
  rfl

theorem applyDeaths_first_wall (id : String) (s : Snake) (ds1 : List DeathRec) :
    ∀ (ds2 : List DeathRec) (e : Engine) (killed : List String),
      (∀ d ∈ ds1, d.id ≠ id ∧ d.killerId = none) →
      killed.contains id = false →
      findSnake id e.snakes = some s → s.alive = true →
      findSnake id (applyDeaths e (ds1 ++ ⟨id, "wall", none⟩ :: ds2) killed).snakes =
        some { s with
          alive := false, deathTick := some e.tick,
          deathCause := some "wall", killedBy := none } := by
  induction ds1 with
  | nil =>
    intro ds2 e killed _ hkilled hs halive
    rw [List.nil_append]
    unfold applyDeaths
    rw [if_neg (by simpa using hkilled)]
    exact applyDeaths_frozen ds2 _ _ id _ (applyDeath_kill e id s hs halive) rfl
  | cons d rest ih =>
    intro ds2 e killed hprop hkilled hs halive
    obtain ⟨hdne, hdk⟩ := hprop d (List.mem_cons_self _ _)
    rw [List.cons_append]
    unfold applyDeaths
    by_cases hc : killed.contains d.id
    · rw [if_pos hc]
      exact ih ds2 e killed (fun x hx => hprop x (List.mem_cons_of_mem d hx)) hkilled hs halive
    · rw [if_neg hc]
      have htick : (applyDeath e d.id d.cause d.killerId).tick = e.tick :=
        (applyDeath_const e d.id d.cause d.killerId).1
      have hs' : findSnake id (applyDeath e d.id d.cause d.killerId).snakes = some s := by
        rw [hdk] at *
        rw [applyDeath_other_nokiller e d.id d.cause id hdne]
        exact hs
      have hkilled' : (d.id :: killed).contains id = false := by
        simp only [List.contains_cons, Bool.or_eq_false_iff]
        exact ⟨by simpa using Ne.symm hdne, hkilled⟩
      have := ih ds2 (applyDeath e d.id d.cause d.killerId) (d.id :: killed)
        (fun x hx => hprop x (List.mem_cons_of_mem d hx)) hkilled' hs' halive
      rw [htick] at this
      exact this

theorem detectCollisions_wall_kill (o : Oracle) (e : Engine) (id : String) (s : Snake)
    (hs : findSnake id e.snakes = some s) (halive : s.alive = true)
    (hghost : s.hasEffect "ghost" = false)
    (hout : boundaryOut o e.centerX e.centerY e.boundaryRadius s = true) :
    findSnake id (detectCollisions o e).snakes =
      some { s with
        alive := false, deathTick := some e.tick,
        deathCause := some "wall", killedBy := none } := by
  have hsid : s.id = id := by
    have := List.find?_some hs
    simpa using this
  have hd : wallSelfDeath o e.centerX e.centerY e.boundaryRadius s =
      some ⟨id, "wall", none⟩ := by
    rw [wallSelfDeath_of o _ _ _ s halive hghost hout, hsid]
  obtain ⟨ds1, ds2, hsplit, hprop⟩ :=
    phase1Deaths_split o e.centerX e.centerY e.boundaryRadius id s e.snakes hs hd
  unfold detectCollisions
  dsimp only
  obtain ⟨t, ht⟩ := crossOuter_extends e.snakes.enum e.snakes.enum
    (phase1Deaths o e.centerX e.centerY e.boundaryRadius e.snakes)
  rw [ht, hsplit, List.append_assoc, List.cons_append]
  exact applyDeaths_first_wall id s ds1 (ds2 ++ t) e [] hprop rfl hs halive

theorem moveSnake_id (o : Oracle) (tick : ℕ) (cx cy R : Q) (s : Snake) :
    (moveSnake o tick cx cy R s).1.id = s.id := rfl

theorem moveSnake_alive (o : Oracle) (tick : ℕ) (cx cy R : Q) (s : Snake) :
    (moveSnake o tick cx cy R s).1.alive = s.alive := rfl

theorem moveSnake_pus (o : Oracle) (tick : ℕ) (cx cy R : Q) (s : Snake) :
    (moveSnake o tick cx cy R s).1.activePowerups = s.activePowerups := rfl

theorem findSnake_moveSnakesGo (o : Oracle) (tick : ℕ) (cx cy R : Q) (id : String) :
    ∀ l : List Snake,
      findSnake id (moveSnakesGo o tick cx cy R l).1 =
        (findSnake id l).map
          (fun s => if s.alive then (moveSnake o tick cx cy R s).1 else s) := by
  intro l
  induction l with
  | nil => rfl
  | cons s rest ih =>
    unfold moveSnakesGo
    by_cases ha : s.alive
    · rw [if_pos ha]
      unfold findSnake at *
      dsimp only
      by_cases h : s.id = id
      · rw [List.find?_cons_of_pos _ (by simp [moveSnake_id, h]),
          List.find?_cons_of_pos _ (by simp [h])]
        simp [ha]
      · rw [List.find?_cons_of_neg _ (by simp [moveSnake_id, h]),
          List.find?_cons_of_neg _ (by simp [h])]
        exact ih
    · rw [if_neg ha]
      unfold findSnake at *
      dsimp only
      by_cases h : s.id = id
      · rw [List.find?_cons_of_pos _ (by simp [h]),
          List.find?_cons_of_pos _ (by simp [h])]
        simp [ha]
      · rw [List.find?_cons_of_neg _ (by simp [h]),
          List.find?_cons_of_neg _ (by simp [h])]
        exact ih

theorem findSnake_updateSnake_any (pid id : String) (f : Snake → Snake) (l : List Snake)
    (hid : ∀ t, (f t).id = t.id) (hseg : ∀ t, (f t).segments = t.segments) :
    (findSnake id (updateSnake pid f l)).map (·.segments) =
      (findSnake id l).map (·.segments) := by
  by_cases h : pid = id
  · subst h
    rw [findSnake_updateSnake pid f l hid]
    cases findSnake pid l with
    | none => rfl
    | some s => simp [hseg]
  · rw [findSnake_updateSnake_ne id pid f l (Ne.symm h) hid]

theorem applyDeath_segments (e : Engine) (pid c : String) (k : Option String) (id : String) :
    (findSnake id (applyDeath e pid c k).snakes).map (·.segments) =
      (findSnake id e.snakes).map (·.segments) := by
  unfold applyDeath
  repeat' first
  | rfl
  | (apply Eq.trans
     · apply findSnake_updateSnake_any <;> intro t <;> rfl
     · apply findSnake_updateSnake_any <;> intro t <;> rfl)
  | (apply findSnake_updateSnake_any <;> intro t <;> rfl)
  | split
  | dsimp only

theorem applyDeaths_segments (ds : List DeathRec) (e : Engine) (killed : List String)
    (id : String) :
    (findSnake id (applyDeaths e ds killed).snakes).map (·.segments) =
      (findSnake id e.snakes).map (·.segments) := by
  induction ds generalizing e killed with
  | nil => rfl
  | cons d rest ih =>
    unfold applyDeaths
    by_cases hc : killed.contains d.id
    · rw [if_pos hc]
      exact ih e killed
    · rw [if_neg hc]
      exact (ih _ _).trans (applyDeath_segments e d.id d.cause d.killerId id)

theorem checkFoodGo_segments (id : String) :
    ∀ (l : List Snake) (food : List FoodItem),
      (findSnake id (checkFoodGo l food).1).map (·.segments) =
        (findSnake id l).map (·.segments) := by
  intro l
  induction l with
  | nil => intro food; rfl
  | cons s rest ih =>
    intro food
    unfold checkFoodGo
    by_cases ha : s.alive
    · rw [if_pos ha]
      unfold findSnake at *
      dsimp only
      by_cases h : s.id = id
      · rw [List.find?_cons_of_pos _ (by simp [h]), List.find?_cons_of_pos _ (by simp [h])]
        rfl
      · rw [List.find?_cons_of_neg _ (by simp [h]), List.find?_cons_of_neg _ (by simp [h])]
        exact ih _
    · rw [if_neg ha]
      unfold findSnake at *
      dsimp only
      by_cases h : s.id = id
      · rw [List.find?_cons_of_pos _ (by simp [h]), List.find?_cons_of_pos _ (by simp [h])]
      · rw [List.find?_cons_of_neg _ (by simp [h]), List.find?_cons_of_neg _ (by simp [h])]
        exact ih _

theorem checkPowerupPickupGo_segments (id : String) :
    ∀ (l : List Snake) (pus : List Powerup),
      (findSnake id (checkPowerupPickupGo l pus).1).map (·.segments) =
        (findSnake id l).map (·.segments) := by
  intro l
  induction l with
  | nil => intro pus; rfl
  | cons s rest ih =>
    intro pus
    unfold checkPowerupPickupGo
    by_cases ha : s.alive
    · rw [if_pos ha]
      dsimp only
      rcases hps : (pickScan s pus).2 with _ | pu <;> dsimp only
      all_goals unfold findSnake at *
      all_goals by_cases h : s.id = id
      · rw [List.find?_cons_of_pos _ (by simp [h]), List.find?_cons_of_pos _ (by simp [h])]
      · rw [List.find?_cons_of_neg _ (by simp [h]), List.find?_cons_of_neg _ (by simp [h])]
        exact ih _
      · rw [List.find?_cons_of_pos _ (by simp [h]), List.find?_cons_of_pos _ (by simp [h])]
        rfl
      · rw [List.find?_cons_of_neg _ (by simp [h]), List.find?_cons_of_neg _ (by simp [h])]
        exact ih _
    · rw [if_neg ha]
      unfold findSnake at *
      dsimp only
      by_cases h : s.id = id
      · rw [List.find?_cons_of_pos _ (by simp [h]), List.find?_cons_of_pos _ (by simp [h])]
      · rw [List.find?_cons_of_neg _ (by simp [h]), List.find?_cons_of_neg _ (by simp [h])]
        exact ih _

theorem tickActivePowerups_segments (e : Engine) (id : String) :
    (findSnake id (tickActivePowerups e).snakes).map (·.segments) =
      (findSnake id e.snakes).map (·.segments) := by
  show (findSnake id (e.snakes.map _)).map (·.segments) = _
  rw [findSnake_map id _ e.snakes (fun t => by by_cases h : t.alive <;> simp [h])]
  cases findSnake id e.snakes with
  | none => rfl
  | some s =>
    by_cases h : s.alive <;> simp [h]

theorem checkFoodGo_dead (id : String) (s : Snake) (hdead : s.alive = false) :
    ∀ (l : List Snake) (food : List FoodItem),
      findSnake id l = some s → findSnake id (checkFoodGo l food).1 = some s := by
  intro l
  induction l with
  | nil => intro food hs; cases hs
  | cons t rest ih =>
    intro food hs
    unfold checkFoodGo
    by_cases h : t.id = id
    · have hts : t = s := by
        unfold findSnake at hs
        rw [List.find?_cons_of_pos _ (by simp [h])] at hs
        exact Option.some.inj hs
      subst hts
      rw [if_neg (by simp [hdead])]
      unfold findSnake
      dsimp only
      rw [List.find?_cons_of_pos _ (by simp [h])]
    · have hs' : findSnake id rest = some s := by
        unfold findSnake at hs ⊢
        rwa [List.find?_cons_of_neg _ (by simp [h])] at hs
      by_cases ha : t.alive
      · rw [if_pos ha]
        unfold findSnake
        dsimp only
        rw [List.find?_cons_of_neg _ (by simp [h])]
        exact ih _ hs'
      · rw [if_neg ha]
        unfold findSnake
        dsimp only
        rw [List.find?_cons_of_neg _ (by simp [h])]
        exact ih _ hs'

theorem checkPowerupPickupGo_dead (id : String) (s : Snake) (hdead : s.alive = false) :
    ∀ (l : List Snake) (pus : List Powerup),
      findSnake id l = some s → findSnake id (checkPowerupPickupGo l pus).1 = some s := by
  intro l
  induction l with
  | nil => intro pus hs; cases hs
  | cons t rest ih =>
    intro pus hs
    unfold checkPowerupPickupGo
    by_cases h : t.id = id
    · have hts : t = s := by
        unfold findSnake at hs
        rw [List.find?_cons_of_pos _ (by simp [h])] at hs
        exact Option.some.inj hs
      subst hts
      rw [if_neg (by simp [hdead])]
      unfold findSnake
      dsimp only
      rw [List.find?_cons_of_pos _ (by simp [h])]
    · have hs' : findSnake id rest = some s := by
        unfold findSnake at hs ⊢
        rwa [List.find?_cons_of_neg _ (by simp [h])] at hs
      by_cases ha : t.alive
      · rw [if_pos ha]
        dsimp only
        rcases hps : (pickScan t pus).2 with _ | pu <;> dsimp only
        · unfold findSnake
          rw [List.find?_cons_of_neg _ (by simp [h])]
          exact ih _ hs'
        · unfold findSnake
          rw [List.find?_cons_of_neg _ (by simp [h])]
          exact ih _ hs'
      · rw [if_neg ha]
        unfold findSnake
        dsimp only
        rw [List.find?_cons_of_neg _ (by simp [h])]
        exact ih _ hs'

theorem tickActivePowerups_dead (e : Engine) (id : String) (s : Snake)
    (hs : findSnake id e.snakes = some s) (hdead : s.alive = false) :
    findSnake id (tickActivePowerups e).snakes = some s := by
  show findSnake id (e.snakes.map _) = _
  rw [findSnake_map id _ e.snakes (fun t => by by_cases h : t.alive <;> simp [h]), hs]
  simp [hdead]

/-! Engine-level wrappers for the per-phase lemmas. -/

theorem checkFood_dead (e : Engine) (id : String) (s : Snake)
    (hs : findSnake id e.snakes = some s) (hdead : s.alive = false) :
    findSnake id (checkFood e).snakes = some s :=
  checkFoodGo_dead id s hdead e.snakes e.food hs

theorem checkPowerupPickup_dead (e : Engine) (id : String) (s : Snake)
    (hs : findSnake id e.snakes = some s) (hdead : s.alive = false) :
    findSnake id (checkPowerupPickup e).snakes = some s :=
  checkPowerupPickupGo_dead id s hdead e.snakes e.powerups hs

theorem checkFood_segments (e : Engine) (id : String) :
    (findSnake id (checkFood e).snakes).map (·.segments) =
      (findSnake id e.snakes).map (·.segments) :=
  checkFoodGo_segments id e.snakes e.food

theorem checkPowerupPickup_segments (e : Engine) (id : String) :
    (findSnake id (checkPowerupPickup e).snakes).map (·.segments) =
      (findSnake id e.snakes).map (·.segments) :=
  checkPowerupPickupGo_segments id e.snakes e.powerups

theorem detectCollisions_segments (o : Oracle) (e : Engine) (id : String) :
    (findSnake id (detectCollisions o e).snakes).map (·.segments) =
      (findSnake id e.snakes).map (·.segments) :=
  applyDeaths_segments _ e [] id

theorem findSnake_moveSnakes (o : Oracle) (e : Engine) (id : String) :
    findSnake id (moveSnakes o e).snakes =
      (findSnake id e.snakes).map
        (fun s =>
          if s.alive then (moveSnake o e.tick e.centerX e.centerY e.boundaryRadius s).1
          else s) :=
  findSnake_moveSnakesGo o e.tick e.centerX e.centerY e.boundaryRadius id e.snakes

/-- The engine state right after the movement phase of `update`. -/
def postMove (o : Oracle) (e : Engine) : Engine :=
  moveSnakes o { e with tick := e.tick + 1, events := [] }

set_option maxHeartbeats 1000000 in
theorem update_decompose (o : Oracle) (e : Engine) :
    (update o e).1 =
      maybeSpawnPowerup o (maintainFood o (tickActivePowerups (checkPowerupPickup
        (checkFood (detectCollisions o (postMove o e)))))) := by
  unfold update postMove
  rfl

/-- C4: a snake that is alive without an active ghost effect and whose head
lies outside the boundary at the end of a tick, and whose head is still
outside at the end of the next `update()`, is dead with cause `"wall"` by
that second tick. -/
theorem boundary_exit_dies_by_next_tick (o : Oracle) (e1 : Engine) (id : String)
    (s1 : Snake) (hs1 : findSnake id e1.snakes = some s1) (halive : s1.alive = true)
    (hghost : s1.hasEffect "ghost" = false)
    (hout1 : boundaryOut o e1.centerX e1.centerY e1.boundaryRadius s1 = true)
    (s2 : Snake) (hs2 : findSnake id (update o e1).1.snakes = some s2)
    (hout2 : boundaryOut o e1.centerX e1.centerY e1.boundaryRadius s2 = true) :
    s2.alive = false ∧ s2.deathCause = some "wall" := by
  have hsm : findSnake id (postMove o e1).snakes =
      some (moveSnake o (e1.tick + 1) e1.centerX e1.centerY e1.boundaryRadius s1).1 := by
    unfold postMove
    rw [findSnake_moveSnakes]
    show (findSnake id e1.snakes).map
      (fun s =>
        if s.alive then (moveSnake o (e1.tick + 1) e1.centerX e1.centerY e1.boundaryRadius s).1
        else s) = _
    rw [hs1]
    show some (if s1.alive = true then _ else s1) = _
    rw [if_pos halive]
  have haM : (moveSnake o (e1.tick + 1) e1.centerX e1.centerY e1.boundaryRadius s1).1.alive =
      true := by
    rw [moveSnake_alive]
    exact halive
  have hgM : (moveSnake o (e1.tick + 1) e1.centerX e1.centerY
      e1.boundaryRadius s1).1.hasEffect "ghost" = false := by
    unfold Snake.hasEffect at hghost ⊢
    rw [moveSnake_pus]
    exact hghost
  by_cases hcase : boundaryOut o e1.centerX e1.centerY e1.boundaryRadius
      (moveSnake o (e1.tick + 1) e1.centerX e1.centerY e1.boundaryRadius s1).1 = true
  · have hkill := detectCollisions_wall_kill o (postMove o e1) id _ hsm haM hgM hcase
    have h3 := checkFood_dead _ id _ hkill rfl
    have h4 := checkPowerupPickup_dead _ id _ h3 rfl
    have h5 := tickActivePowerups_dead _ id _ h4 rfl
    have h6 : findSnake id (update o e1).1.snakes =
        findSnake id (tickActivePowerups (checkPowerupPickup (checkFood
          (detectCollisions o (postMove o e1))))).snakes := by
      rw [update_decompose, maybeSpawnPowerup_snakes, maintainFood_snakes]
    rw [h6, h5] at hs2
    have hfs2 := (Option.some.inj hs2).symm
    constructor
    · rw [hfs2]
    · rw [hfs2]
  · exfalso
    have hchain : (findSnake id (update o e1).1.snakes).map (·.segments) =
        (findSnake id (postMove o e1).snakes).map (·.segments) := by
      rw [update_decompose, maybeSpawnPowerup_snakes, maintainFood_snakes]
      exact (tickActivePowerups_segments _ _).trans
        ((checkPowerupPickup_segments _ _).trans
          ((checkFood_segments _ _).trans (detectCollisions_segments o _ id)))
    rw [hs2, hsm] at hchain
    have hseg : s2.segments =
        (moveSnake o (e1.tick + 1) e1.centerX e1.centerY e1.boundaryRadius s1).1.segments := by
      simpa using hchain
    have hbo : boundaryOut o e1.centerX e1.centerY e1.boundaryRadius s2 =
        boundaryOut o e1.centerX e1.centerY e1.boundaryRadius
          (moveSnake o (e1.tick + 1) e1.centerX e1.centerY e1.boundaryRadius s1).1 := by
      unfold boundaryOut Snake.head
      rw [hseg]
    rw [hbo] at hout2
    exact hcase hout2

def snakeC4 : Snake :=
  ⟨"g", "gia", "classic", "#8B5CF6",
    (List.range 10).map (fun i => ⟨⟨1000 - 3 * (i : ℤ), 1⟩, 100⟩), 0, 0, false, true,
    0, 0, 10, 0, [("ghost", 1)], none, none, none, 0⟩

def engineC4 : Engine := ⟨200, 100, 100, 50, [snakeC4], [], [], [], 0, 7⟩

/-- The ghost snake after its ghost effect expires at the end of the first
tick, still far outside the boundary. -/
def sAfterOne : Snake := (findSnake "g" (update oracle0 engineC4).1.snakes).getD snakeC4

def sAfterTwo : Snake :=
  (findSnake "g" (update oracle0 (update oracle0 engineC4).1).1.snakes).getD snakeC4

set_option maxRecDepth 8000 in
theorem boundary_exit_dies_by_next_tick_witness :
    findSnake "g" (update oracle0 engineC4).1.snakes = some sAfterOne ∧
    sAfterOne.alive = true ∧
    sAfterOne.hasEffect "ghost" = false ∧
    boundaryOut oracle0 (update oracle0 engineC4).1.centerX (update oracle0 engineC4).1.centerY
      (update oracle0 engineC4).1.boundaryRadius sAfterOne = true ∧
    findSnake "g" (update oracle0 (update oracle0 engineC4).1).1.snakes = some sAfterTwo ∧
    boundaryOut oracle0 (update oracle0 engineC4).1.centerX (update oracle0 engineC4).1.centerY
      (update oracle0 engineC4).1.boundaryRadius sAfterTwo = true ∧
    (sAfterTwo.alive = false ∧ sAfterTwo.deathCause = some "wall") :=
  ⟨by rfl, by decide, by decide, by decide, by rfl, by decide,
    boundary_exit_dies_by_next_tick oracle0 (update oracle0 engineC4).1 "g" sAfterOne
      (by rfl) (by decide) (by decide) (by decide) sAfterTwo (by rfl) (by decide)⟩

/-! ### C1: head-to-head resolution -/

def snakeC1xA : Snake :=
  ⟨"A", "ann", "classic", "#EF4444",
    (List.range 20).map (fun i => ⟨⟨1497 - 3 * (i : ℤ), 1⟩, 1500⟩), 0, 0, false, true,
    0, 0, 20, 0, [], none, none, none, 0⟩

def snakeC1xB : Snake :=
  ⟨"B", "ben", "classic", "#22C55E",
    (List.range 10).map (fun i => ⟨⟨1497 - 3 * (i : ℤ), 1⟩, 1504⟩), 0, 0, false, true,
    0, 0, 10, 0, [], none, none, none, 0⟩

def engineC1x : Engine := ⟨3000, 1500, 1500, 1450, [snakeC1xA, snakeC1xB], [], [], [], 0, 11⟩

def c1xA : Snake := (findSnake "A" (update oracle0 engineC1x).1.snakes).getD snakeC1xA

def c1xB : Snake := (findSnake "B" (update oracle0 engineC1x).1.snakes).getD snakeC1xB

set_option maxRecDepth 8000 in
/-- C1 counterexample: an `update()` tick in which the two heads end within
`2×headRadius` (a head-to-head collision) and *both* snakes die — the
head-to-head loser dies first, and the other snake independently dies on the
loser's body in the same collision pass — refuting "exactly one of the two
snakes dies (never both)". -/
theorem head_to_head_both_die :
    findSnake "A" (update oracle0 engineC1x).1.snakes = some c1xA ∧
    findSnake "B" (update oracle0 engineC1x).1.snakes = some c1xB ∧
    Q.lt (dist2 c1xA.head c1xB.head) (hhThreshold * hhThreshold) = true ∧
    c1xA.alive = false ∧ c1xB.alive = false :=
  ⟨by rfl, by rfl, by decide, by decide, by decide⟩

theorem wallSelfDeath_none (o : Oracle) (cx cy R : Q) (s : Snake)
    (hin : boundaryOut o cx cy R s = false) (hself : selfCollides s = false) :
    wallSelfDeath o cx cy R s = none := by
  unfold wallSelfDeath
  by_cases ha : s.alive
  · rw [if_neg (by simp [ha]), if_neg (by simp [hin]), if_neg (by simp [hself])]
  · rw [if_pos (by simp [ha])]

/-- C1 (amended): in a clean two-snake head-to-head collision — both alive,
both inside the boundary, no self-collision, no shield, heads within
`2×headRadius`, and no independent body hit of the survivor on the loser's
corpse — exactly one snake dies: the one whose head is closer to the other's
previous head position (ties resolved against the first snake in map order),
with `killedBy` the survivor, who is credited +1 kill and +50 score. -/
theorem head_to_head_exactly_one_dies (o : Oracle) (e : Engine) (A B : Snake)
    (hsn : e.snakes = [A, B]) (hid : A.id ≠ B.id)
    (haA : A.alive = true) (haB : B.alive = true)
    (hinA : boundaryOut o e.centerX e.centerY e.boundaryRadius A = false)
    (hinB : boundaryOut o e.centerX e.centerY e.boundaryRadius B = false)
    (hselfA : selfCollides A = false) (hselfB : selfCollides B = false)
    (hshA : A.hasEffect "shield" = false) (hshB : B.hasEffect "shield" = false)
    (hhh : headToHeadClose A B = true)
    (hbody : bodyHit B A = false) :
    (Q.le (dist2 A.head (prevHead B)) (dist2 B.head (prevHead A)) = true →
      findSnake A.id (detectCollisions o e).snakes =
        some { A with
          alive := false, deathTick := some e.tick,
          deathCause := some "head_collision", killedBy := some B.id } ∧
      findSnake B.id (detectCollisions o e).snakes =
        some { B with kills := B.kills + 1, score := B.score + 50 }) ∧
    (Q.le (dist2 A.head (prevHead B)) (dist2 B.head (prevHead A)) = false →
      findSnake B.id (detectCollisions o e).snakes =
        some { B with
          alive := false, deathTick := some e.tick,
          deathCause := some "head_collision", killedBy := some A.id } ∧
      findSnake A.id (detectCollisions o e).snakes =
        some { A with kills := A.kills + 1, score := A.score + 50 }) := by
  have hbeq : (A.id == B.id) = false := by simp [hid]
  have hwA := wallSelfDeath_none o e.centerX e.centerY e.boundaryRadius A hinA hselfA
  have hwB := wallSelfDeath_none o e.centerX e.centerY e.boundaryRadius B hinB hselfB
  have hph : phase1Deaths o e.centerX e.centerY e.boundaryRadius [A, B] = [] := by
    simp [phase1Deaths, hwA, hwB]
  have hfA : findSnake A.id e.snakes = some A := by
    rw [hsn]; unfold findSnake
    rw [List.find?_cons_of_pos _ (by simp)]
  have hfB : findSnake B.id e.snakes = some B := by
    rw [hsn]; unfold findSnake
    rw [List.find?_cons_of_neg _ (by simp [hid]), List.find?_cons_of_pos _ (by simp)]
  refine ⟨fun hcc => ?_, fun hcc => ?_⟩
  · have h1 : crossInner 0 A [(0, A), (1, B)] [] =
        [⟨A.id, "head_collision", some B.id⟩] := by
      unfold crossInner
      rw [if_pos rfl]
      unfold crossInner
      rw [if_neg (show ¬((0 : ℕ) = 1) by decide)]
      rw [if_neg (show ¬¬(B.alive = true) by simp [haB])]
      rw [if_neg (show ¬((([] : List DeathRec).any fun d => d.id == A.id) = true) by simp)]
      rw [if_pos (show (decide ((0 : ℕ) < 1) && headToHeadClose A B) = true by simp [hhh])]
      dsimp only
      rw [hcc]
      simp only [eq_self_iff_true, if_true]
      rw [if_neg (show ¬(A.hasEffect "shield" = true) by simp [hshA])]
      rfl
    have h2 : crossInner 1 B [(0, A), (1, B)] [⟨A.id, "head_collision", some B.id⟩] =
        [⟨A.id, "head_collision", some B.id⟩] := by
      unfold crossInner
      rw [if_neg (show ¬((1 : ℕ) = 0) by decide)]
      rw [if_neg (show ¬¬(A.alive = true) by simp [haA])]
      rw [if_neg (show ¬((([⟨A.id, "head_collision", some B.id⟩] : List DeathRec).any
        fun d => d.id == B.id) = true) by simp [hbeq])]
      rw [if_neg (show ¬((decide ((1 : ℕ) < 0) && headToHeadClose B A) = true) by simp)]
      rw [if_neg (show ¬((!B.hasEffect "ghost" && !B.hasEffect "shield" && bodyHit B A) = true)
        by simp [hbody])]
      unfold crossInner
      rw [if_pos rfl]
      rfl
    have hcross : crossOuter ([A, B] : List Snake).enum ([A, B] : List Snake).enum [] =
        [⟨A.id, "head_collision", some B.id⟩] := by
      show crossOuter [(0, A), (1, B)] [(0, A), (1, B)] [] = _
      unfold crossOuter
      rw [if_neg (show ¬((!A.alive || ([] : List DeathRec).any fun d => d.id == A.id) = true)
        by simp [haA])]
      rw [h1]
      unfold crossOuter
      rw [if_neg (show ¬((!B.alive || ([⟨A.id, "head_collision", some B.id⟩] : List DeathRec).any
        fun d => d.id == B.id) = true) by simp [haB, hbeq])]
      rw [h2]
      rfl
    unfold detectCollisions
    rw [hsn]
    dsimp only
    rw [hph, hcross]
    show findSnake A.id (applyDeath e A.id "head_collision" (some B.id)).snakes = _ ∧
      findSnake B.id (applyDeath e A.id "head_collision" (some B.id)).snakes = _
    unfold applyDeath
    rw [hfA]
    dsimp only
    rw [if_neg (show ¬¬(A.alive = true) by simp [haA])]
    rw [findSnake_updateSnake_ne B.id A.id
      (fun t => { t with alive := false, deathTick := some e.tick, deathCause := some "head_collision", killedBy := some B.id }) e.snakes (Ne.symm hid) (fun t => rfl), hfB]
    dsimp only
    rw [if_pos haB]
    constructor
    · show findSnake A.id (updateSnake B.id _ (updateSnake A.id _ e.snakes)) = _
      rw [findSnake_updateSnake_ne A.id B.id
        (fun t => { t with kills := t.kills + 1, score := t.score + 50 })
        (updateSnake A.id (fun t => { t with alive := false, deathTick := some e.tick, deathCause := some "head_collision", killedBy := some B.id }) e.snakes) hid (fun t => rfl)]
      rw [findSnake_updateSnake A.id
        (fun t => { t with alive := false, deathTick := some e.tick, deathCause := some "head_collision", killedBy := some B.id }) e.snakes (fun t => rfl), hfA]
      rfl
    · show findSnake B.id (updateSnake B.id _ (updateSnake A.id _ e.snakes)) = _
      rw [findSnake_updateSnake B.id
        (fun t => { t with kills := t.kills + 1, score := t.score + 50 })
        (updateSnake A.id (fun t => { t with alive := false, deathTick := some e.tick, deathCause := some "head_collision", killedBy := some B.id }) e.snakes) (fun t => rfl)]
      rw [findSnake_updateSnake_ne B.id A.id
        (fun t => { t with alive := false, deathTick := some e.tick, deathCause := some "head_collision", killedBy := some B.id }) e.snakes (Ne.symm hid) (fun t => rfl), hfB]
      rfl
  · have h1 : crossInner 0 A [(0, A), (1, B)] [] =
        [⟨B.id, "head_collision", some A.id⟩] := by
      unfold crossInner
      rw [if_pos rfl]
      unfold crossInner
      rw [if_neg (show ¬((0 : ℕ) = 1) by decide)]
      rw [if_neg (show ¬¬(B.alive = true) by simp [haB])]
      rw [if_neg (show ¬((([] : List DeathRec).any fun d => d.id == A.id) = true) by simp)]
      rw [if_pos (show (decide ((0 : ℕ) < 1) && headToHeadClose A B) = true by simp [hhh])]
      dsimp only
      rw [hcc]
      simp only [Bool.false_eq_true, if_false]
      rw [if_neg (show ¬(B.hasEffect "shield" = true) by simp [hshB])]
      rfl
    have hcross : crossOuter ([A, B] : List Snake).enum ([A, B] : List Snake).enum [] =
        [⟨B.id, "head_collision", some A.id⟩] := by
      show crossOuter [(0, A), (1, B)] [(0, A), (1, B)] [] = _
      unfold crossOuter
      rw [if_neg (show ¬((!A.alive || ([] : List DeathRec).any fun d => d.id == A.id) = true)
        by simp [haA])]
      rw [h1]
      unfold crossOuter
      rw [if_pos (show (!B.alive || ([⟨B.id, "head_collision", some A.id⟩] : List DeathRec).any
        fun d => d.id == B.id) = true by simp)]
      rfl
    unfold detectCollisions
    rw [hsn]
    dsimp only
    rw [hph, hcross]
    show findSnake B.id (applyDeath e B.id "head_collision" (some A.id)).snakes = _ ∧
      findSnake A.id (applyDeath e B.id "head_collision" (some A.id)).snakes = _
    unfold applyDeath
    rw [hfB]
    dsimp only
    rw [if_neg (show ¬¬(B.alive = true) by simp [haB])]
    rw [findSnake_updateSnake_ne A.id B.id
      (fun t => { t with alive := false, deathTick := some e.tick, deathCause := some "head_collision", killedBy := some A.id }) e.snakes hid (fun t => rfl), hfA]
    dsimp only
    rw [if_pos haA]
    constructor
    · show findSnake B.id (updateSnake A.id _ (updateSnake B.id _ e.snakes)) = _
      rw [findSnake_updateSnake_ne B.id A.id
        (fun t => { t with kills := t.kills + 1, score := t.score + 50 })
        (updateSnake B.id (fun t => { t with alive := false, deathTick := some e.tick, deathCause := some "head_collision", killedBy := some A.id }) e.snakes) (Ne.symm hid) (fun t => rfl)]
      rw [findSnake_updateSnake B.id
        (fun t => { t with alive := false, deathTick := some e.tick, deathCause := some "head_collision", killedBy := some A.id }) e.snakes (fun t => rfl), hfB]
      rfl
    · show findSnake A.id (updateSnake A.id _ (updateSnake B.id _ e.snakes)) = _
      rw [findSnake_updateSnake A.id
        (fun t => { t with kills := t.kills + 1, score := t.score + 50 })
        (updateSnake B.id (fun t => { t with alive := false, deathTick := some e.tick, deathCause := some "head_collision", killedBy := some A.id }) e.snakes) (fun t => rfl)]
      rw [findSnake_updateSnake_ne A.id B.id
        (fun t => { t with alive := false, deathTick := some e.tick, deathCause := some "head_collision", killedBy := some A.id }) e.snakes hid (fun t => rfl), hfA]
      rfl

def snakeC1wA : Snake :=
  ⟨"a", "ada", "classic", "#EF4444",
    (List.range 20).map (fun i => ⟨⟨1500 - 3 * (i : ℤ), 1⟩, 1500⟩), 0, 0, false, true,
    40, 1, 20, 0, [], none, none, none, 0⟩

def snakeC1wB : Snake :=
  ⟨"b", "bob", "classic", "#22C55E",
    (List.range 10).map (fun i => ⟨⟨1510 + 3 * (i : ℤ), 1⟩, 1500⟩), 0, 0, false, true,
    25, 0, 10, 0, [], none, none, none, 0⟩

def engineC1w : Engine := ⟨3000, 1500, 1500, 1450, [snakeC1wA, snakeC1wB], [], [], [], 4, 1⟩

theorem head_to_head_exactly_one_dies_witness :
    findSnake "a" (detectCollisions oracle0 engineC1w).snakes =
      some { snakeC1wA with
        alive := false, deathTick := some 4,
        deathCause := some "head_collision", killedBy := some "b" } ∧
    findSnake "b" (detectCollisions oracle0 engineC1w).snakes =
      some { snakeC1wB with kills := snakeC1wB.kills + 1, score := snakeC1wB.score + 50 } :=
  (head_to_head_exactly_one_dies oracle0 engineC1w snakeC1wA snakeC1wB rfl
    (by decide) (by decide) (by decide) (by decide) (by decide) (by decide) (by decide)
    (by decide) (by decide) (by decide) (by decide)).1 (by decide)
